import Mathlib

/-!
Shallow embedding of the core of the `db-project` relational engine
(`src/db.py`, with the second prototype `src/nevi/db.py` and
`src/nevi/db_types.py` embedded separately where claims cite it).

Conventions of the embedding:
* Python values of type `int | str | date | None` become the inductive `Attr`.
* The BerkeleyDB key-value stores become association lists inside `DBState`;
  the `ZZ_table_` / `ZZ_refcnt_table_` / `ZZ_refcnt_record_` key prefixes of
  the source are reflected as separate fields of `DBState` (the prefixes only
  exist to keep the key families disjoint, which distinct fields model).
* `os.urandom`-generated primary keys for tables with no declared primary key
  become `PKey.rand n`, fed from a counter `randCtr` threaded through the
  state, so every operation is a deterministic function.
* Python exceptions become `Except DBErr`; an operation that raises leaves the
  caller's state untouched, which the embedding reflects by returning only an
  error value (no state) on the error path.
* Row values are persisted as JSON in the source (`json.dumps(record.vals)`)
  and decoded back by `_decode_record`; the embedding stores the decoded
  attribute list directly, since the claims under study do not concern the
  byte-level codec.
-/

/-- One attribute value: `int | str | date | None` (`Attr` in `db.py`). -/
inductive Attr where
  | anull : Attr
  | aint (i : Int) : Attr
  | astr (s : String) : Attr
  | adate (y m d : Int) : Attr
deriving DecidableEq, Repr

/-- Column type class (`CClass` in `db.py`). -/
inductive CClass where
  | cint | cchar | cdate
deriving DecidableEq, Repr

/-- Column type (`CType` in `db.py`): class, optional CHAR length, nullability. -/
structure CType where
  cclass : CClass
  cparam : Option Nat := none
  nullable : Bool := true
deriving DecidableEq, Repr

/-- `CType.check_type`: whether a non-NULL attribute fits this type.  The
source asserts the argument is not `None`; the NULL branch is never taken by
callers (they guard with `is not None`). -/
def CType.check_type (t : CType) (a : Attr) : Bool :=
  match a with
  | Attr.anull => true
  | Attr.aint _ => t.cclass = CClass.cint
  | Attr.astr _ => t.cclass = CClass.cchar
  | Attr.adate _ _ _ => t.cclass = CClass.cdate

/-- `CType.check_null`: `(attr is not None) or self.nullable`. -/
def CType.check_null (t : CType) (a : Attr) : Bool :=
  decide (a ≠ Attr.anull) || t.nullable

/-- `CType.match_fkey`: equal class and equal presence of the CHAR length
parameter; the `nullable` bit is ignored. -/
def CType.match_fkey (t other : CType) : Bool :=
  decide (t.cclass = other.cclass) && (t.cparam.isNone == other.cparam.isNone)

/-- `Column` of `db.py`. -/
structure Column where
  cname : String
  ctype : CType
deriving DecidableEq, Repr

/-- `FKey` of `db.py`: referenced table name and the local-to-referenced
column-name map (a Python dict, modelled as an association list). -/
structure FKey where
  ref_tname : String
  cname_map : List (String × String)
deriving DecidableEq, Repr

/-- `Table` of `db.py`.  `pkeys` is a Python `set`, modelled as a list with
set-style comparisons. -/
structure Table where
  tname : String
  cols : List Column
  pkeys : List String := []
  fkeys : List FKey := []
deriving DecidableEq, Repr

/-- `Table.cnames()` as a list (the source builds a set; only membership and
subset tests are performed on it). -/
def Table.cnamesL (t : Table) : List String :=
  t.cols.map (fun c => c.cname)

/-- Boolean subset test on name lists (Python set `<=` / `>=`). -/
def subsetB (a b : List String) : Bool :=
  a.all (fun x => b.contains x)

/-- Boolean set equality on name lists (Python set `==`). -/
def seteqB (a b : List String) : Bool :=
  subsetB a b && subsetB b a

/-- `Table.find_col`: first column with the given name, `KeyError` if absent
(modelled as `none`). -/
def Table.find_col (t : Table) (cname : String) : Option Column :=
  t.cols.find? (fun c => c.cname = cname)

/-- `Record` of `db.py`: values plus optional column names. -/
structure Record where
  vals : List Attr
  cnames : Option (List String) := none
deriving DecidableEq, Repr

/-- One element of the JSON list a primary key is serialized to
(`json.dumps(pkey)` in `Record.pkey`; dates become `[y, m, d]`). -/
inductive PVal where
  | pnull : PVal
  | pint (i : Int) : PVal
  | pstr (s : String) : PVal
  | pdate (y m d : Int) : PVal
deriving DecidableEq, Repr

/-- Primary-key byte string: either the canonical JSON encoding or a fresh
16-byte random key (`hexlify(os.urandom(16))`) for tables without a declared
primary key, modelled by a counter value. -/
inductive PKey where
  | enc (l : List PVal) : PKey
  | rand (n : Nat) : PKey
deriving DecidableEq, Repr

/-- Element conversion used by `Record.pkey`. -/
def attrToPVal : Attr → PVal
  | Attr.anull => PVal.pnull
  | Attr.aint i => PVal.pint i
  | Attr.astr s => PVal.pstr s
  | Attr.adate y m d => PVal.pdate y m d

/-- The deterministic part of `Record.pkey`: keep the values whose column name
is in `table.pkeys`, in record order, dates as `[y,m,d]`. -/
def Record.pkeyF (r : Record) (t : Table) : PKey :=
  PKey.enc (((r.cnames.getD []).zip r.vals).filterMap
    (fun p => if t.pkeys.contains p.1 then some (attrToPVal p.2) else none))

/-- `Record.pkey`, threading the randomness counter: a table with no primary
key gets a fresh unique key. -/
def Record.pkey (r : Record) (t : Table) (ctr : Nat) : PKey × Nat :=
  if t.pkeys.isEmpty then (PKey.rand ctr, ctr + 1) else (r.pkeyF t, ctr)

/-- The foreign-key components extracted by `FKey.ref_record`: pairs of
(referenced column name, local value) for the record columns appearing in
`cname_map` whose mapped column is in the referenced table's primary key. -/
def FKey.refComponents (fk : FKey) (rt : Table) (r : Record) : List (String × Attr) :=
  ((r.cnames.getD []).zip r.vals).filterMap (fun p =>
    match fk.cname_map.find? (fun q => q.1 = p.1) with
    | none => none
    | some q => if rt.pkeys.contains q.2 then some (q.2, p.2) else none)

/-- `FKey.ref_record`: `none` when the entire foreign key is NULL (the check
is waived), otherwise the referenced record. -/
def FKey.refRecord (fk : FKey) (rt : Table) (r : Record) : Option Record :=
  let comps := fk.refComponents rt r
  if comps.all (fun c => c.2 = Attr.anull) then none
  else some { vals := comps.map (fun c => c.2), cnames := some (comps.map (fun c => c.1)) }

/-- `Ident` of `db.py`: optional table alias plus column name. -/
structure Ident where
  tname : Option String
  cname : String
deriving DecidableEq, Repr

/-- `Ident.match`: if both table names are set they must agree; the column
names must agree. -/
def Ident.matches (self other : Ident) : Bool :=
  if self.tname.isSome && other.tname.isSome && decide (other.tname ≠ self.tname)
  then false
  else decide (self.cname = other.cname)

/-- `QualRecord` of `db.py`: values with per-column qualified identifiers. -/
structure QualRecord where
  vals : List Attr
  idents : List Ident
deriving DecidableEq, Repr

/-- `QualRecord.unqual`. -/
def QualRecord.unqual (r : QualRecord) : Record :=
  { vals := r.vals, cnames := some (r.idents.map (fun i => i.cname)) }

/-- `QualRecord.find`: first value whose identifier matches; the source raises
an "unreachable code" exception when nothing matches, modelled as `none`. -/
def QualRecord.find (r : QualRecord) (ident : Ident) : Option Attr :=
  ((r.idents.zip r.vals).find? (fun p => p.1.matches ident)).map (fun p => p.2)

/-- Comparison operators of the WHERE grammar (`CompOp`). -/
inductive CompOp where
  | lt | le | gt | ge | eq | ne
deriving DecidableEq, Repr

/-- WHERE operands (`Operand = Union[Ident, int, str, date]`). -/
inductive Operand where
  | oident (i : Ident) : Operand
  | oint (i : Int) : Operand
  | ostr (s : String) : Operand
  | odate (y m d : Int) : Operand
deriving DecidableEq, Repr

mutual
/-- The WHERE AST of `db.py` (`WhereNOP`, `WhereAnd`, `WhereOr`, `WhereNot`,
`WhereNull`, `WhereComp`).  The n-ary children of AND/OR are a mutual list so
evaluation is structurally recursive. -/
inductive Where where
  | nop : Where
  | wand (ws : WhereList) : Where
  | wor (ws : WhereList) : Where
  | wnot (w : Where) : Where
  | wnull (ident : Ident) : Where
  | wcomp (left right : Operand) (oper : CompOp) : Where
inductive WhereList where
  | nil : WhereList
  | cons (w : Where) (tl : WhereList) : WhereList
end

/-- Python `<` restricted to the attribute types; `none` models the
`TypeError` raised on mixed non-NULL types (validation prevents it). -/
def attrLtB : Attr → Attr → Option Bool
  | Attr.aint a, Attr.aint b => some (decide (a < b))
  | Attr.astr a, Attr.astr b => some (decide (a < b))
  | Attr.adate y m d, Attr.adate v n e =>
      some (decide (y < v ∨ (y = v ∧ (m < n ∨ (m = n ∧ d < e)))))
  | _, _ => none

/-- Python `<=` on attributes, same conventions as `attrLtB`. -/
def attrLeB : Attr → Attr → Option Bool
  | Attr.aint a, Attr.aint b => some (decide (a ≤ b))
  | Attr.astr a, Attr.astr b => some (decide (a ≤ b))
  | Attr.adate y m d, Attr.adate v n e =>
      some (decide (y < v ∨ (y = v ∧ (m < n ∨ (m = n ∧ d ≤ e)))))
  | _, _ => none

/-- The comparison dispatch of `WhereComp.evaluate` on two non-NULL values.
Python `==` and `!=` are total across types (mixed types compare unequal). -/
def applyComp (op : CompOp) (a b : Attr) : Option Bool :=
  match op with
  | CompOp.lt => attrLtB a b
  | CompOp.le => attrLeB a b
  | CompOp.gt => attrLtB b a
  | CompOp.ge => attrLeB b a
  | CompOp.eq => some (decide (a = b))
  | CompOp.ne => some (decide (a ≠ b))

/-- `WhereComp._get_value`: literals evaluate to themselves, identifiers are
looked up in the qualified record. -/
def getValue (r : QualRecord) : Operand → Option Attr
  | Operand.oident i => r.find i
  | Operand.oint i => some (Attr.aint i)
  | Operand.ostr s => some (Attr.astr s)
  | Operand.odate y m d => some (Attr.adate y m d)

mutual
/-- The `evaluate` methods of the WHERE AST.  `none` models an exception
escaping evaluation.  Note `wnot` returns its child's value unchanged,
exactly as `WhereNot.evaluate` in the source does (the source has no `not`). -/
def evalWhere : Where → QualRecord → Option Bool
  | Where.nop, _ => some true
  | Where.wand ws, r => evalAllW ws r
  | Where.wor ws, r => evalAnyW ws r
  | Where.wnot w, r => evalWhere w r
  | Where.wnull i, r =>
      match r.find i with
      | none => none
      | some a => some (decide (a = Attr.anull))
  | Where.wcomp l rt op, r =>
      match getValue r l with
      | none => none
      | some lv =>
        match getValue r rt with
        | none => none
        | some rv =>
          if lv = Attr.anull ∨ rv = Attr.anull then some false
          else applyComp op lv rv

/-- Python `all(...)` over child evaluations: short-circuits at the first
false, propagates exceptions of the children actually evaluated. -/
def evalAllW : WhereList → QualRecord → Option Bool
  | WhereList.nil, _ => some true
  | WhereList.cons w tl, r =>
      match evalWhere w r with
      | none => none
      | some false => some false
      | some true => evalAllW tl r

/-- Python `any(...)` over child evaluations: short-circuits at the first
true. -/
def evalAnyW : WhereList → QualRecord → Option Bool
  | WhereList.nil, _ => some false
  | WhereList.cons w tl, r =>
      match evalWhere w r with
      | none => none
      | some true => some true
      | some false => evalAnyW tl r
end

/-- The error/diagnostic taxonomy of `db_messages.py`, plus markers for raw
Python exceptions that escape the engine (`KeyError` from `find_col` or
`_get_table` in uncaught positions, `IndexError` from list indexing, and the
explicit "unreachable code" exception of `QualRecord.find`). -/
inductive DBErr where
  | syntaxError
  | duplicateColumnDef
  | duplicatePrimaryKeyDef
  | referenceTypeErr
  | referenceNonPrimaryKey
  | referenceColumnExistence
  | referenceTableExistence
  | nonExistingColumnDef (cname : String)
  | tableExistence
  | charLength
  | noSuchTable
  | dropReferencedTable (tname : String)
  | insertTypeMismatch
  | insertColumnExistence (cname : String)
  | insertColumnNonNullable (cname : String)
  | insertDuplicatePrimaryKey
  | insertReferentialIntegrity
  | deleteReferentialIntegrityPassed (count : Nat)
  | selectTableExistence (tname : String)
  | selectColumnResolve (cname : String)
  | whereIncomparable
  | whereTableNotSpecified
  | whereColumnNotExist
  | whereAmbiguousReference
  | pyKeyError
  | pyIndexError
  | pyEvalError
deriving DecidableEq, Repr

/-- `View` of `db.py`: the row shape a predicate is validated against. -/
structure View where
  idents : List Ident
  cols : List Column
deriving DecidableEq, Repr

/-- One loop step of `View.find`; the state is
(match_table, match_ident, match). -/
def viewFindStep (ident : Ident) (st : Bool × Bool × Option Column)
    (p : Ident × Column) : Except DBErr (Bool × Bool × Option Column) :=
  match ident.tname with
  | some t =>
      if p.1.tname ≠ some t then Except.ok st
      else if p.1.cname ≠ ident.cname then Except.ok (true, st.2.1, st.2.2)
      else if st.2.1 then Except.error DBErr.whereAmbiguousReference
      else Except.ok (true, true, some p.2)
  | none =>
      if p.1.cname ≠ ident.cname then Except.ok st
      else if st.2.1 then Except.error DBErr.whereAmbiguousReference
      else Except.ok (st.1, true, some p.2)

/-- `View.find`: resolve an identifier against the view, with the three
resolution errors of the source. -/
def View.find (v : View) (ident : Ident) : Except DBErr Column :=
  match (v.idents.zip v.cols).foldlM (viewFindStep ident) (ident.tname.isNone, false, none) with
  | Except.error e => Except.error e
  | Except.ok st =>
      if !st.1 then Except.error DBErr.whereTableNotSpecified
      else if !st.2.1 then Except.error DBErr.whereColumnNotExist
      else match st.2.2 with
        | some c => Except.ok c
        | none => Except.error DBErr.whereColumnNotExist

/-- `WhereComp._get_type`: the type class an operand resolves to. -/
def getOperandType (v : View) : Operand → Except DBErr CClass
  | Operand.oident i =>
      match v.find i with
      | Except.error e => Except.error e
      | Except.ok c => Except.ok c.ctype.cclass
  | Operand.oint _ => Except.ok CClass.cint
  | Operand.ostr _ => Except.ok CClass.cchar
  | Operand.odate _ _ _ => Except.ok CClass.cdate

/-- `WhereComp.validate`: both sides must have the same type class; the four
ordered operators additionally require INT or DATE. -/
def validateComp (v : View) (l r : Operand) (op : CompOp) : Except DBErr Unit :=
  match getOperandType v l with
  | Except.error e => Except.error e
  | Except.ok lt =>
    match getOperandType v r with
    | Except.error e => Except.error e
    | Except.ok rt =>
      if lt ≠ rt then Except.error DBErr.whereIncomparable
      else
        match op with
        | CompOp.eq => Except.ok ()
        | CompOp.ne => Except.ok ()
        | _ =>
            if lt = CClass.cint ∨ lt = CClass.cdate then Except.ok ()
            else Except.error DBErr.whereIncomparable

mutual
/-- The `validate` methods of the WHERE AST. -/
def validateWhere : Where → View → Except DBErr Unit
  | Where.nop, _ => Except.ok ()
  | Where.wand ws, v => validateAllW ws v
  | Where.wor ws, v => validateAllW ws v
  | Where.wnot w, v => validateWhere w v
  | Where.wnull i, v =>
      match v.find i with
      | Except.error e => Except.error e
      | Except.ok _ => Except.ok ()
  | Where.wcomp l r op, v => validateComp v l r op

/-- Child-by-child validation for AND/OR. -/
def validateAllW : WhereList → View → Except DBErr Unit
  | WhereList.nil, _ => Except.ok ()
  | WhereList.cons w tl, v =>
      match validateWhere w v with
      | Except.error e => Except.error e
      | Except.ok _ => validateAllW tl v
end

/-- Association-list overwrite (`db.put` without `DB_NOOVERWRITE`): replace
the first binding of the key, or append a new one. -/
def assocPut {α β : Type} [DecidableEq α] : List (α × β) → α → β → List (α × β)
  | [], k, v => [(k, v)]
  | p :: rest, k, v => if p.1 = k then (k, v) :: rest else p :: assocPut rest k v

/-- First index of a name in a list (Python `list.index`); total because the
callers only use it after a membership test. -/
def listIndexOf : List String → String → Nat
  | [], _ => 0
  | x :: rest, s => if x = s then 0 else listIndexOf rest s + 1

/-- The persistent state of `db.py`'s `DB`: the schema catalog (tables and the
two refcount families) plus every table's row namespace, and the randomness
counter for tables without a primary key. -/
structure DBState where
  tables : List (String × Table)
  rows : List ((String × PKey) × List Attr)
  refcntTable : List (String × Int)
  refcntRecord : List ((String × PKey) × Int)
  randCtr : Nat
deriving DecidableEq, Repr

/-- `DB._get_table` (the `KeyError` on absence is returned as `none` and
mapped to an error by each caller, as in the source). -/
def getTable (s : DBState) (tname : String) : Option Table :=
  (s.tables.find? (fun p => p.1 = tname)).map (fun p => p.2)

/-- The rows of one table's namespace, in cursor order. -/
def tableRows (s : DBState) (tname : String) : List ((String × PKey) × List Attr) :=
  s.rows.filter (fun p => p.1.1 = tname)

/-- `tdb.get(pkey)` on a table namespace. -/
def getRecordRaw (s : DBState) (tname : String) (pk : PKey) : Option (List Attr) :=
  (s.rows.find? (fun p => p.1 = (tname, pk))).map (fun p => p.2)

/-- `DB._get_refcnt_table`: absent entries read as 0. -/
def getRefcntTable (s : DBState) (tname : String) : Int :=
  ((s.refcntTable.find? (fun p => p.1 = tname)).map (fun p => p.2)).getD 0

/-- `DB._add_refcnt_table`. -/
def addRefcntTable (s : DBState) (tname : String) (delta : Int) : DBState :=
  { s with refcntTable := assocPut s.refcntTable tname (getRefcntTable s tname + delta) }

/-- `DB._get_refcnt_record`: absent entries read as 0. -/
def getRefcntRecord (s : DBState) (tname : String) (pk : PKey) : Int :=
  ((s.refcntRecord.find? (fun p => p.1 = (tname, pk))).map (fun p => p.2)).getD 0

/-- `DB._add_refcnt_record`. -/
def addRefcntRecord (s : DBState) (tname : String) (pk : PKey) (delta : Int) : DBState :=
  { s with refcntRecord := assocPut s.refcntRecord (tname, pk) (getRefcntRecord s tname pk + delta) }

/-- `DB._decode_record`: rebuild a qualified record from a stored row, with
identifiers `(table.tname, column name)` in schema column order. -/
def decodeRecord (t : Table) (vals : List Attr) : QualRecord :=
  { vals := vals, idents := t.cols.map (fun c => { tname := some t.tname, cname := c.cname }) }

/-- One loop step of pass 1 of `DB._delete_records`: skip rows the predicate
rejects, and record each matching row's values and per-row refcount, drawing
a fresh random key when the table has no primary key. -/
def scanStep (s : DBState) (t : Table) (w : Where) (acc : List (List Attr × Int) × Nat)
    (p : (String × PKey) × List Attr) : Option (List (List Attr × Int) × Nat) :=
  match evalWhere w (decodeRecord t p.2) with
  | none => none
  | some false => some acc
  | some true =>
      let pkc := Record.pkey (decodeRecord t p.2).unqual t acc.2
      some (acc.1 ++ [(p.2, getRefcntRecord s t.tname pkc.1)], pkc.2)

/-- Pass 1 of `DB._delete_records`: walk the table's rows, collect every row
matching the predicate together with its per-row refcount.  `none` models an
exception escaping `where.evaluate`. -/
def scanMatched (s : DBState) (t : Table) (w : Where) :
    Option (List (List Attr × Int) × Nat) :=
  (tableRows s t.tname).foldlM (scanStep s t w) ([], s.randCtr)

/-- One step of the refcount-decrement loop of pass 2 of
`DB._delete_records`: resolve the referenced table and record of one foreign
key and decrement the referenced row's refcount. -/
def decFKeyStep (t : Table) (vals : List Attr) (acc : DBState) (fk : FKey) :
    Except DBErr DBState :=
  match getTable acc fk.ref_tname with
  | none => Except.error DBErr.pyKeyError
  | some rt =>
      match fk.refRecord rt { vals := vals, cnames := some t.cnamesL } with
      | none => Except.ok acc
      | some rr =>
          let pkc := Record.pkey rr rt acc.randCtr
          Except.ok { addRefcntRecord acc rt.tname pkc.1 (-1) with randCtr := pkc.2 }

/-- The refcount-decrement loop of pass 2 of `DB._delete_records`. -/
def decrementFKeys (st : DBState) (t : Table) (vals : List Attr) : Except DBErr DBState :=
  t.fkeys.foldlM (decFKeyStep t vals) st

/-- One loop step of pass 2 of `DB._delete_records`: delete a matching row
through the cursor, then decrement the per-row refcounts of its foreign-key
targets. -/
def pass2Step (t : Table) (w : Where) (acc : DBState)
    (p : (String × PKey) × List Attr) : Except DBErr DBState :=
  match evalWhere w (decodeRecord t p.2) with
  | none => Except.error DBErr.pyEvalError
  | some false => Except.ok acc
  | some true =>
      decrementFKeys { acc with rows := acc.rows.eraseP (fun q => q.1 = p.1) } t p.2

/-- Pass 2 of `DB._delete_records`. -/
def deletePass2 (s : DBState) (t : Table) (w : Where) : Except DBErr DBState :=
  (tableRows s t.tname).foldlM (pass2Step t w) s

/-- `DB._delete_records`: two passes; referential-integrity failure in pass 1
aborts the whole statement with the total number of matched rows. -/
def deleteRecords (s : DBState) (t : Table) (w : Where) : Except DBErr (DBState × Nat) :=
  match scanMatched s t w with
  | none => Except.error DBErr.pyEvalError
  | some (matched, _) =>
      if matched.any (fun p => 0 < p.2) then
        Except.error (DBErr.deleteReferentialIntegrityPassed matched.length)
      else
        match deletePass2 s t w with
        | Except.error e => Except.error e
        | Except.ok s2 => Except.ok (s2, matched.length)

/-- The view `DB.delete_values` validates the predicate against. -/
def deleteView (tname : String) (t : Table) : View :=
  { idents := t.cols.map (fun c => { tname := some tname, cname := c.cname }),
    cols := t.cols }

/-- `DB.delete_values`. -/
def deleteValues (s : DBState) (tname : String) (w : Option Where) :
    Except DBErr (DBState × Nat) :=
  match getTable s tname with
  | none => Except.error DBErr.noSuchTable
  | some t =>
      let wh := w.getD Where.nop
      match validateWhere wh (deleteView tname t) with
      | Except.error e => Except.error e
      | Except.ok _ => deleteRecords s t wh

/-- The value `DB.insert_values` selects for one column when constructing the
full row: the supplied value if the column was named, NULL if omitted; `none`
models the `IndexError` when the value list is shorter than the name list. -/
def colValue (cns : List String) (vs : List Attr) (col : Column) : Option Attr :=
  if cns.contains col.cname then vs[listIndexOf cns col.cname]? else some Attr.anull

/-- The per-column checks of `DB.insert_values`, in source order:
non-nullability first, then the type class. -/
def colErr (col : Column) (v : Attr) : Option DBErr :=
  if !col.ctype.check_null v then some (DBErr.insertColumnNonNullable col.cname)
  else if decide (v ≠ Attr.anull) && !col.ctype.check_type v then some DBErr.insertTypeMismatch
  else none

/-- CHAR truncation of `DB.insert_values`: string values are cut to the
declared cap (a missing cap, Python `s[:None]`, keeps the string whole). -/
def truncateVal (col : Column) (v : Attr) : Attr :=
  match v with
  | Attr.astr s =>
      match col.ctype.cparam with
      | some n => Attr.astr (s.take n)
      | none => Attr.astr s
  | _ => v

/-- Steps 2-4 of `DB.insert_values`: resolve the column-name list, reject
unknown columns, and construct the full row aligned to the table's column
order, enforcing nullability and types and truncating CHAR values. -/
def buildFullRecord (t : Table) (record : Record) : Except DBErr (List String × List Attr) :=
  match
    (match record.cnames with
     | none =>
         if t.cols.length ≠ record.vals.length then Except.error DBErr.insertTypeMismatch
         else Except.ok t.cnamesL
     | some cs => Except.ok cs) with
  | Except.error e => Except.error e
  | Except.ok cns =>
      match cns.filter (fun c => !t.cnamesL.contains c) with
      | d :: _ => Except.error (DBErr.insertColumnExistence d)
      | [] =>
          match
            t.cols.foldlM
              (fun acc col =>
                match colValue cns record.vals col with
                | none => Except.error DBErr.pyIndexError
                | some v =>
                    match colErr col v with
                    | some e => Except.error e
                    | none => Except.ok (acc ++ [truncateVal col v]))
              [] with
          | Except.error e => Except.error e
          | Except.ok vals => Except.ok (cns, vals)

/-- The foreign-key loop of `DB.insert_values`: for each foreign key, resolve
the referenced table, skip the key if the reference is entirely NULL,
otherwise require the referenced row to exist, collecting the referenced
(table, primary-key) pairs whose refcounts are to be incremented. -/
def collectFKeyStep (s : DBState) (fullrec : Record)
    (acc : List (String × PKey) × Nat) (fk : FKey) :
    Except DBErr (List (String × PKey) × Nat) :=
  match getTable s fk.ref_tname with
  | none => Except.error DBErr.pyKeyError
  | some rt =>
      match fk.refRecord rt fullrec with
      | none => Except.ok acc
      | some rr =>
          let pkc := Record.pkey rr rt acc.2
          match getRecordRaw s rt.tname pkc.1 with
          | none => Except.error DBErr.insertReferentialIntegrity
          | some _ => Except.ok (acc.1 ++ [(rt.tname, pkc.1)], pkc.2)

/-- The foreign-key loop of `DB.insert_values`, folded over the table's
foreign keys. -/
def collectFKeys (s : DBState) (t : Table) (fullrec : Record) :
    Except DBErr (List (String × PKey) × Nat) :=
  t.fkeys.foldlM (collectFKeyStep s fullrec) ([], s.randCtr)

/-- The refcount increments performed after a successful row put. -/
def applyRefIncs (st : DBState) (ks : List (String × PKey)) : DBState :=
  ks.foldl (fun acc kp => addRefcntRecord acc kp.1 kp.2 1) st

/-- `DB.insert_values`. -/
def insertValues (s : DBState) (tname : String) (record : Record) : Except DBErr DBState :=
  match getTable s tname with
  | none => Except.error DBErr.noSuchTable
  | some t =>
      match buildFullRecord t record with
      | Except.error e => Except.error e
      | Except.ok (_, vals) =>
          let fullrec : Record := { vals := vals, cnames := some t.cnamesL }
          match collectFKeys s t fullrec with
          | Except.error e => Except.error e
          | Except.ok (ks, ctr1) =>
              let pkc := Record.pkey fullrec t ctr1
              if (getRecordRaw s t.tname pkc.1).isSome then
                Except.error DBErr.insertDuplicatePrimaryKey
              else
                Except.ok (applyRefIncs
                  { s with rows := s.rows ++ [((t.tname, pkc.1), vals)], randCtr := pkc.2 } ks)

/-- The per-foreign-key validation of `DB.create_table`, faithful to the
source including its `>=` (superset) test on line 503: the error
`reference-column-existence` is raised when the mapped-to column set CONTAINS
all columns of the referenced table, and a mapping to a nonexistent referenced
column instead reaches `find_col`, whose `KeyError` escapes uncaught. -/
def checkCreateFKey (s : DBState) (t : Table) (fk : FKey) : Except DBErr Unit :=
  match getTable s fk.ref_tname with
  | none => Except.error DBErr.referenceTableExistence
  | some rt =>
      if subsetB rt.cnamesL (fk.cname_map.map (fun q => q.2)) then
        Except.error DBErr.referenceColumnExistence
      else
        match
          fk.cname_map.foldlM
            (fun _ q =>
              match t.find_col q.1 with
              | none => Except.error DBErr.pyKeyError
              | some fc =>
                  match rt.find_col q.2 with
                  | none => Except.error DBErr.pyKeyError
                  | some tc =>
                      if !fc.ctype.match_fkey tc.ctype then Except.error DBErr.referenceTypeErr
                      else Except.ok ())
            () with
        | Except.error e => Except.error e
        | Except.ok _ =>
            if !seteqB (fk.cname_map.map (fun q => q.2)) rt.pkeys then
              Except.error DBErr.referenceNonPrimaryKey
            else Except.ok ()

/-- `DB.create_table`. -/
def createTable (s : DBState) (t : Table) : Except DBErr DBState :=
  match t.fkeys.foldlM (fun _ fk => checkCreateFKey s t fk) () with
  | Except.error e => Except.error e
  | Except.ok _ =>
      if (s.tables.find? (fun p => p.1 = t.tname)).isSome then
        Except.error DBErr.tableExistence
      else
        Except.ok (t.fkeys.foldl (fun acc fk => addRefcntTable acc fk.ref_tname 1)
          { s with tables := s.tables ++ [(t.tname, t)] })

/-- `TableView` of `db.py`: the FROM list with aliases. -/
structure TableView where
  tnames : List String
  alt_tnames : List String
deriving DecidableEq, Repr

/-- `ColumnView` of `db.py`: the projection list with output aliases. -/
structure ColumnView where
  idents : List Ident
  alt_cnames : List String
deriving DecidableEq, Repr

/-- `ColumnView.project`: for each projected identifier take the first value
of the record whose identifier matches it, re-tagged with the output alias.
When nothing matches (impossible after validation) the source's loop variable
leaks its last value; the embedding uses the last value as well. -/
def ColumnView.project (cv : ColumnView) (record : QualRecord) : QualRecord :=
  let pairs := cv.idents.zip cv.alt_cnames
  { vals := pairs.map (fun pc =>
      (((record.idents.zip record.vals).find? (fun rp => rp.1.matches pc.1)).map
        (fun rp => rp.2)).getD (record.vals.getLastD Attr.anull)),
    idents := pairs.map (fun pc => { tname := none, cname := pc.2 }) }

/-- The first pass of `DB.select_values` over the FROM list: resolve every
table and build the composite view, each table's columns re-tagged with its
alias. -/
def buildSelView (s : DBState) (tv : TableView) : Except DBErr (View × List Table) :=
  (tv.tnames.zip tv.alt_tnames).foldlM
    (fun acc p =>
      match getTable s p.1 with
      | none => Except.error (DBErr.selectTableExistence p.1)
      | some t =>
          Except.ok
            ({ idents := acc.1.idents ++ t.cols.map (fun c => { tname := some p.2, cname := c.cname }),
               cols := acc.1.cols ++ t.cols },
             acc.2 ++ [t]))
    ({ idents := [], cols := [] }, [])

/-- The `SELECT *` duplicate-column check of `DB.select_values`. -/
def checkStarUnique (cols : List Column) : Except DBErr Unit :=
  match
    cols.foldlM
      (fun (seen : List String) col =>
        if seen.contains col.cname then Except.error (DBErr.selectColumnResolve col.cname)
        else Except.ok (seen ++ [col.cname]))
      [] with
  | Except.error e => Except.error e
  | Except.ok _ => Except.ok ()

/-- The projection-resolution loop of `DB.select_values`: every projected
identifier must resolve in the view; any resolution error is mapped to
`select-column-resolve`.  Note the source performs NO uniqueness check on the
output aliases. -/
def checkProjection (view : View) (cv : ColumnView) : Except DBErr Unit :=
  cv.idents.foldlM
    (fun _ i =>
      match view.find i with
      | Except.error _ => Except.error (DBErr.selectColumnResolve i.cname)
      | Except.ok _ => Except.ok ())
    ()

/-- `DB._generate_records` for one table: its rows as qualified records tagged
with the alias. -/
def generateRecords (s : DBState) (t : Table) (alt : String) : List QualRecord :=
  (tableRows s t.tname).map (fun p =>
    { vals := p.2, idents := t.cols.map (fun c => { tname := some alt, cname := c.cname }) })

/-- `itertools.product` over the per-table generators, leftmost table
outermost. -/
def prodRecords : List (List QualRecord) → List (List QualRecord)
  | [] => [[]]
  | g :: gs => g.flatMap (fun r => (prodRecords gs).map (fun rest => r :: rest))

/-- The record union of one product element. -/
def combineQR (rs : List QualRecord) : QualRecord :=
  { vals := rs.flatMap (fun r => r.vals), idents := rs.flatMap (fun r => r.idents) }

/-- The filtering/projection loop of `DB.select_values`. -/
def selectRows (cview : Option ColumnView) (w : Where) (combos : List (List QualRecord)) :
    Except DBErr (List (List Attr)) :=
  combos.foldlM
    (fun acc rs =>
      let full := combineQR rs
      match evalWhere w full with
      | none => Except.error DBErr.pyEvalError
      | some false => Except.ok acc
      | some true =>
          match cview with
          | none => Except.ok (acc ++ [full.vals])
          | some cv => Except.ok (acc ++ [(cv.project full).vals]))
    []

/-- `DB.select_values`, returning the headers and rows handed to the
fixed-width renderer (`_render_select` itself is pure output formatting). -/
def selectValues (s : DBState) (cview : Option ColumnView) (tview : TableView)
    (w : Option Where) : Except DBErr (List String × List (List Attr)) :=
  match buildSelView s tview with
  | Except.error e => Except.error e
  | Except.ok (view, tables) =>
      match
        (match cview with
         | none => checkStarUnique view.cols
         | some cv => checkProjection view cv) with
      | Except.error e => Except.error e
      | Except.ok _ =>
          let wh := w.getD Where.nop
          match validateWhere wh view with
          | Except.error e => Except.error e
          | Except.ok _ =>
              let gens := (tables.zip tview.alt_tnames).map (fun p => generateRecords s p.1 p.2)
              let headers :=
                match cview with
                | none => view.cols.map (fun c => c.cname)
                | some cv => cv.alt_cnames
              match selectRows cview wh (prodRecords gens) with
              | Except.error e => Except.error e
              | Except.ok rows => Except.ok (headers, rows)

/-- Python `str.lower()`, character by character (kernel-reducible, unlike
`lowerStr`). -/
def lowerStr (s : String) : String := String.mk (s.data.map Char.toLower)

/-- `ColumnType` of `src/nevi/db_types.py`. -/
structure NColumnType where
  type_class : CClass
  type_attr : Option Int := none
deriving DecidableEq, Repr

/-- `ColumnType.validate` of the nevi prototype: only CHAR carries a length,
and the length must be positive. -/
def NColumnType.validate (t : NColumnType) : Except DBErr Unit :=
  if t.type_class ≠ CClass.cchar then
    if t.type_attr.isSome then Except.error DBErr.syntaxError else Except.ok ()
  else
    match t.type_attr with
    | none => Except.error DBErr.syntaxError
    | some n => if n ≤ 0 then Except.error DBErr.charLength else Except.ok ()

/-- `Column` of the nevi prototype. -/
structure NColumn where
  name : String
  col_type : NColumnType
  nullable : Bool := true
deriving DecidableEq, Repr

/-- `Column.validate` of the nevi prototype. -/
def NColumn.validate (c : NColumn) : Except DBErr Unit :=
  if c.name = "" then Except.error DBErr.syntaxError else c.col_type.validate

/-- `ForeignKey` of the nevi prototype: the local columns (which must carry
the same names as the referenced table's primary-key columns) and the
referenced table name. -/
structure NForeignKey where
  columns : List String
  ref_table : String
deriving DecidableEq, Repr

/-- `ForeignKey.validate` of the nevi prototype. -/
def NForeignKey.validate (fk : NForeignKey) : Except DBErr Unit :=
  if fk.ref_table = "" then Except.error DBErr.syntaxError
  else if fk.columns.isEmpty then Except.error DBErr.syntaxError
  else if ((fk.columns.map lowerStr).eraseDups).length != fk.columns.length then
    Except.error DBErr.duplicateColumnDef
  else Except.ok ()

/-- `Table` of the nevi prototype. -/
structure NTable where
  name : String
  columns : List NColumn
  primary_keys : List (List String) := []
  foreign_keys : List NForeignKey := []
deriving DecidableEq, Repr

/-- `Table.find_column` of the nevi prototype (case-insensitive; `KeyError`
modelled as `none`). -/
def NTable.find_column (t : NTable) (cname : String) : Option NColumn :=
  t.columns.find? (fun c => lowerStr c.name = lowerStr cname)

/-- `Table.validate` of the nevi prototype.  The source mutates the table,
setting `nullable = False` on every column named in the primary key; the
embedding returns the updated table. -/
def NTable.validate (t : NTable) : Except DBErr NTable :=
  if t.name = "" then Except.error DBErr.syntaxError
  else if t.columns.isEmpty then Except.error DBErr.syntaxError
  else
    match t.columns.foldlM (fun (_ : Unit) (c : NColumn) => c.validate) () with
    | Except.error e => Except.error e
    | Except.ok _ =>
      let col_names := (t.columns.map (fun c => lowerStr c.name)).eraseDups
      if col_names.length != t.columns.length then Except.error DBErr.duplicateColumnDef
      else if 1 < t.primary_keys.length then Except.error DBErr.duplicatePrimaryKeyDef
      else
        match
          (match t.primary_keys with
           | [] => Except.ok t
           | pk :: _ =>
               let pkey_names := (pk.map lowerStr).eraseDups
               if pkey_names.length != pk.length then Except.error DBErr.duplicatePrimaryKeyDef
               else
                 match pkey_names.filter (fun n => !col_names.contains n) with
                 | d :: _ => Except.error (DBErr.nonExistingColumnDef d)
                 | [] =>
                     Except.ok { t with columns := t.columns.map (fun (c : NColumn) =>
                       if pkey_names.contains (lowerStr c.name) then { c with nullable := false }
                       else c) }) with
        | Except.error e => Except.error e
        | Except.ok t2 =>
            match
              t2.foreign_keys.foldlM
                (fun (_ : Unit) (fk : NForeignKey) =>
                  match fk.validate with
                  | Except.error e => Except.error e
                  | Except.ok _ =>
                      if lowerStr fk.ref_table = lowerStr t2.name then
                        Except.error DBErr.referenceTableExistence
                      else
                        match (fk.columns.map lowerStr).filter
                            (fun n => !col_names.contains n) with
                        | d :: _ => Except.error (DBErr.nonExistingColumnDef d)
                        | [] => Except.ok ())
                () with
            | Except.error e => Except.error e
            | Except.ok _ => Except.ok t2

/-- The persistent state of the nevi prototype's `DB`: the schema catalog
(keyed by lowercased table name) and the per-referenced-table refcounts
(`ZZ_REFCOUNT_<name>` keys, modelled keyed by lowercased table name).  The
claims citing the prototype concern only the catalog, not its row store. -/
structure NDBState where
  tables : List (String × NTable)
  refcnt : List (String × Int)
deriving DecidableEq, Repr

/-- `DB._get_table` of the nevi prototype. -/
def ngetTable (s : NDBState) (name : String) : Option NTable :=
  (s.tables.find? (fun p => p.1 = lowerStr name)).map (fun p => p.2)

/-- `DB._get_refcnt` of the nevi prototype: `schema_db.get` with a packed-zero
default, so an absent entry reads as 0. -/
def ngetRefcnt (s : NDBState) (name : String) : Int :=
  ((s.refcnt.find? (fun p => p.1 = lowerStr name)).map (fun p => p.2)).getD 0

/-- `DB._add_refcnt` of the nevi prototype: a zero result deletes the entry
instead of storing it. -/
def naddRefcnt (s : NDBState) (name : String) (delta : Int) : NDBState :=
  let v := ngetRefcnt s name + delta
  if v != 0 then { s with refcnt := assocPut s.refcnt (lowerStr name) v }
  else { s with refcnt := s.refcnt.eraseP (fun p => p.1 = lowerStr name) }

/-- The per-foreign-key validation of the nevi prototype's `create_table`:
local columns must exist in the referenced table (`reference-column-existence`
raised correctly from a subset test), the referenced table must have a primary
key equal, as a name set, to the foreign key's columns, and the column types
must be equal. -/
def ncheckFKey (s : NDBState) (tbl : NTable) (fk : NForeignKey) : Except DBErr Unit :=
  let col_names := (fk.columns.map lowerStr).eraseDups
  match ngetTable s fk.ref_table with
  | none => Except.error DBErr.referenceTableExistence
  | some refd =>
      let refd_col_names := (refd.columns.map (fun c => lowerStr c.name)).eraseDups
      if !(col_names.filter (fun n => !refd_col_names.contains n)).isEmpty then
        Except.error DBErr.referenceColumnExistence
      else if refd.primary_keys.isEmpty then Except.error DBErr.referenceNonPrimaryKey
      else
        let refd_pkey_names := ((refd.primary_keys.headD []).map lowerStr).eraseDups
        if !(seteqB col_names refd_pkey_names) then Except.error DBErr.referenceNonPrimaryKey
        else
          col_names.foldlM
            (fun _ cn =>
              match tbl.find_column cn with
              | none => Except.error DBErr.pyKeyError
              | some refr_col =>
                  match refd.find_column cn with
                  | none => Except.error DBErr.pyKeyError
                  | some refd_col =>
                      if refr_col.col_type != refd_col.col_type then
                        Except.error DBErr.referenceTypeErr
                      else Except.ok ())
            ()

/-- `DB.create_table` of the nevi prototype. -/
def ncreateTable (s : NDBState) (tbl : NTable) : Except DBErr NDBState :=
  match tbl.validate with
  | Except.error e => Except.error e
  | Except.ok t2 =>
      match t2.foreign_keys.foldlM (fun _ fk => ncheckFKey s t2 fk) () with
      | Except.error e => Except.error e
      | Except.ok _ =>
          if (s.tables.find? (fun p => p.1 = lowerStr t2.name)).isSome then
            Except.error DBErr.tableExistence
          else
            Except.ok (t2.foreign_keys.foldl (fun acc fk => naddRefcnt acc fk.ref_table 1)
              { s with tables := s.tables ++ [(lowerStr t2.name, t2)] })

/-- `DB.drop_table` of the nevi prototype: rejected while the
per-referenced-table refcount is non-zero. -/
def ndropTable (s : NDBState) (name : String) : Except DBErr NDBState :=
  match ngetTable s name with
  | none => Except.error DBErr.noSuchTable
  | some tbl =>
      if ngetRefcnt s name ≠ 0 then Except.error (DBErr.dropReferencedTable name)
      else
        Except.ok (tbl.foreign_keys.foldl (fun acc fk => naddRefcnt acc fk.ref_table (-1))
          { s with tables := s.tables.eraseP (fun p => p.1 = lowerStr name) })

/-- The refcount decrements of one deleted row, as a fold (used to relate
pass 2 of DELETE to the increments of INSERT). -/
def applyRefDecs (st : DBState) (ks : List (String × PKey)) : DBState :=
  ks.foldl (fun acc kp => addRefcntRecord acc kp.1 kp.2 (-1)) st

/-- Shorthand for an INT column of `db.py`. -/
def colInt (n : String) : Column :=
  { cname := n, ctype := { cclass := CClass.cint } }

/-- Fixture: table `a (x INT, w INT, PRIMARY KEY (x))`. -/
def fixTa : Table :=
  { tname := "a", cols := [colInt "x", colInt "w"], pkeys := ["x"] }

/-- Fixture: table `b (y INT, PRIMARY KEY (y), FOREIGN KEY (y) REFERENCES a (x))`. -/
def fixTb : Table :=
  { tname := "b", cols := [colInt "y"], pkeys := ["y"],
    fkeys := [{ ref_tname := "a", cname_map := [("y", "x")] }] }

/-- Fixture: the row `(1, 5)` of table `a`. -/
def fixRowA1 : (String × PKey) × List Attr :=
  (("a", PKey.enc [PVal.pint 1]), [Attr.aint 1, Attr.aint 5])

/-- Fixture: a state holding tables `a` and `b` and the single `a` row. -/
def fixSab : DBState :=
  { tables := [("a", fixTa), ("b", fixTb)], rows := [fixRowA1],
    refcntTable := [("a", 1)], refcntRecord := [], randCtr := 0 }

/-- Fixture: the state of `fixSab` after inserting `(1)` into `b`. -/
def fixSab2 : DBState :=
  { tables := [("a", fixTa), ("b", fixTb)],
    rows := [fixRowA1, (("b", PKey.enc [PVal.pint 1]), [Attr.aint 1])],
    refcntTable := [("a", 1)],
    refcntRecord := [(("a", PKey.enc [PVal.pint 1]), 1)], randCtr := 0 }

/-- Fixture: state with two `a` rows where the first is referenced (per-row
refcount 1), used to exercise the blocked DELETE. -/
def fixScBlocked : DBState :=
  { tables := [("a", fixTa), ("b", fixTb)],
    rows := [fixRowA1, (("a", PKey.enc [PVal.pint 2]), [Attr.aint 2, Attr.aint 6])],
    refcntTable := [("a", 1)],
    refcntRecord := [(("a", PKey.enc [PVal.pint 1]), 1)], randCtr := 0 }

/-- Fixture: state with table `a` and its single row, nothing referenced. -/
def fixSaRow : DBState :=
  { tables := [("a", fixTa)], rows := [fixRowA1],
    refcntTable := [], refcntRecord := [], randCtr := 0 }

/-- Fixture: table `a1 (x INT, PRIMARY KEY (x))`, a referenced table whose
primary key covers all of its columns. -/
def fixA1 : Table :=
  { tname := "a1", cols := [colInt "x"], pkeys := ["x"] }

/-- Fixture: state holding only `a1`. -/
def fixS5 : DBState :=
  { tables := [("a1", fixA1)], rows := [], refcntTable := [], refcntRecord := [], randCtr := 0 }

/-- Fixture: a CREATE TABLE input whose foreign key maps `y` to the
nonexistent column `z` of `a1`. -/
def fixBbad : Table :=
  { tname := "b", cols := [colInt "y"], pkeys := ["y"],
    fkeys := [{ ref_tname := "a1", cname_map := [("y", "z")] }] }

/-- Fixture: a CREATE TABLE input with a perfectly valid foreign key
`y REFERENCES a1 (x)`. -/
def fixBok : Table :=
  { tname := "b", cols := [colInt "y"], pkeys := ["y"],
    fkeys := [{ ref_tname := "a1", cname_map := [("y", "x")] }] }

/-- Fixture: state holding only table `a`. -/
def fixSa : DBState :=
  { tables := [("a", fixTa)], rows := [], refcntTable := [], refcntRecord := [], randCtr := 0 }

/-- Fixture: a CREATE TABLE input with TWO foreign keys referencing `a`. -/
def fixTu : Table :=
  { tname := "u", cols := [colInt "a1", colInt "a2c"], pkeys := ["a1"],
    fkeys := [{ ref_tname := "a", cname_map := [("a1", "x")] },
              { ref_tname := "a", cname_map := [("a2c", "x")] }] }

/-- Fixture: the state produced by creating `fixTu` over `fixSa`. -/
def fixSu : DBState :=
  { tables := [("a", fixTa), ("u", fixTu)], rows := [],
    refcntTable := [("a", 2)], refcntRecord := [], randCtr := 0 }

/-- The number of OTHER stored tables holding at least one foreign key that
references `T` (the quantity the specification says the per-table refcount
equals). -/
def refTablesCount (s : DBState) (T : String) : Nat :=
  (s.tables.filter (fun p =>
    decide (p.1 ≠ T) && p.2.fkeys.any (fun f => f.ref_tname = T))).length

/-- The total number of foreign-key declarations across stored tables that
reference `T` (the quantity the per-table refcount actually tracks). -/
def fkeyCountTo (s : DBState) (T : String) : Nat :=
  (s.tables.map (fun p => (p.2.fkeys.filter (fun f => f.ref_tname = T)).length)).sum

/-- The per-table refcount invariant maintained by the engine. -/
def TableRefcntInv (s : DBState) : Prop :=
  ∀ T : String, getRefcntTable s T = (fkeyCountTo s T : Int)

/-- Fixture: nevi table `t1 (c INT, PRIMARY KEY (c))`. -/
def fixNT1 : NTable :=
  { name := "t1", columns := [{ name := "c", col_type := { type_class := CClass.cint } }],
    primary_keys := [["c"]] }

/-- Fixture: nevi state holding `t1`, unreferenced. -/
def fixNS : NDBState := { tables := [("t1", fixNT1)], refcnt := [] }

/-- Fixture: a nevi CREATE TABLE input whose foreign-key column `z` does not
exist in the referenced table `t1`. -/
def fixNZ : NTable :=
  { name := "t2", columns := [{ name := "z", col_type := { type_class := CClass.cint } }],
    foreign_keys := [{ columns := ["z"], ref_table := "t1" }] }

/-- Fixture: projection `SELECT a.x AS z, a.w AS z FROM a` with duplicated
output alias `z`. -/
def fixCV9 : ColumnView :=
  { idents := [{ tname := some "a", cname := "x" }, { tname := some "a", cname := "w" }],
    alt_cnames := ["z", "z"] }

/-- Fixture: the FROM list `a` (no alias renaming). -/
def fixTV9 : TableView := { tnames := ["a"], alt_tnames := ["a"] }

/-- Fixture: a qualified record with a single NULL column `c`. -/
def fixNullRec : QualRecord :=
  { vals := [Attr.anull], idents := [{ tname := some "t", cname := "c" }] }


/-- Fixture: tables `a` and `b` with no rows at all, so any foreign-key
lookup from an insert into `b` fails. -/
def fixSabNoRow : DBState :=
  { tables := [("a", fixTa), ("b", fixTb)], rows := [],
    refcntTable := [("a", 1)], refcntRecord := [], randCtr := 0 }

/-- Shorthand for a non-nullable INT column of `db.py`. -/
def colIntNN (n : String) : Column :=
  { cname := n, ctype := { cclass := CClass.cint, nullable := false } }

/-- Every non-nullable column of the row holds a non-NULL value (row aligned
to the table's column order). -/
def rowRespectsNonNull (t : Table) (vals : List Attr) : Bool :=
  (t.cols.zip vals).all (fun p => p.1.ctype.nullable || decide (p.2 ≠ Attr.anull))

/-- No primary-key column of the row holds NULL. -/
def rowNoNullPKey (t : Table) (vals : List Attr) : Bool :=
  (t.cols.zip vals).all (fun p => !(t.pkeys.contains p.1.cname) || decide (p.2 ≠ Attr.anull))

/-- Every primary-key column of the table is declared non-nullable (the §3
invariant "columns appearing in the primary key are implicitly non-nullable",
established by the nevi `Table.validate`). -/
def PkeyColsNonNull (t : Table) : Bool :=
  t.cols.all (fun c => !(t.pkeys.contains c.cname) || (c.ctype.nullable == false))

/-- Every stored table is keyed by its own name. -/
def TablesNamed (s : DBState) : Prop :=
  ∀ (tn : String) (t : Table), getTable s tn = some t → t.tname = tn

/-- The claimed invariant: no stored row holds NULL in a primary-key column
of its table. -/
def NoNullPkeyInv (s : DBState) : Prop :=
  ∀ p ∈ s.rows, ∀ t : Table, getTable s p.1.1 = some t → rowNoNullPKey t p.2 = true

/-- Fixture: table `c3 (x INT NOT NULL, w INT, PRIMARY KEY (x))` (the parser
marks primary-key columns non-nullable per the §3 invariant). -/
def fixTc3 : Table :=
  { tname := "c3", cols := [colIntNN "x", colInt "w"], pkeys := ["x"] }

/-- Fixture: state holding only `c3`, empty. -/
def fixSc3 : DBState :=
  { tables := [("c3", fixTc3)], rows := [], refcntTable := [], refcntRecord := [], randCtr := 0 }

/-- Fixture: the predicate `y = 1` over table `b`. -/
def fixWy : Where :=
  Where.wcomp (Operand.oident { tname := none, cname := "y" }) (Operand.oint 1) CompOp.eq

theorem foldlM_except_inv {α σ : Type} (f : σ → α → Except DBErr σ) (P : σ → Prop)
    (hf : ∀ st a st2, P st → f st a = Except.ok st2 → P st2) :
    ∀ (l : List α) (st st2 : σ), P st → List.foldlM f st l = Except.ok st2 → P st2 := by
  intro l
  induction l with
  | nil =>
      intro st st2 h hfold
      simp only [List.foldlM_nil] at hfold
      cases hfold
      exact h
  | cons a l ih =>
      intro st st2 h hfold
      simp only [List.foldlM_cons] at hfold
      cases hstep : f st a with
      | error e => rw [hstep] at hfold; simp [Bind.bind, Except.bind] at hfold
      | ok st1 =>
          rw [hstep] at hfold
          simp only [Bind.bind, Except.bind] at hfold
          exact ih st1 st2 (hf st a st1 h hstep) hfold

theorem find_assocPut_self {α β : Type} [DecidableEq α] (l : List (α × β)) (k : α) (v : β) :
    List.find? (fun p => decide (p.1 = k)) (assocPut l k v) = some (k, v) := by
  induction l with
  | nil => simp [assocPut]
  | cons p rest ih =>
      by_cases hp : p.1 = k
      · simp [assocPut, hp]
      · simp [assocPut, hp, ih]

theorem find_assocPut_ne {α β : Type} [DecidableEq α] (l : List (α × β)) (k : α) (v : β)
    (k2 : α) (h : k2 ≠ k) :
    List.find? (fun p => decide (p.1 = k2)) (assocPut l k v) =
      List.find? (fun p => decide (p.1 = k2)) l := by
  induction l with
  | nil =>
      have hk : ¬(k = k2) := fun hh => h (Eq.symm hh)
      simp [assocPut, hk]
  | cons p rest ih =>
      by_cases hp : p.1 = k
      · have hk2 : ¬(k = k2) := fun hh => h (Eq.symm hh)
        have hp2 : ¬(p.1 = k2) := by rw [hp]; exact hk2
        simp [assocPut, hp, hk2, hp2]
      · by_cases hq : p.1 = k2
        · have hk : ¬(k2 = k) := h
          simp [assocPut, hp, hq, hk]
        · simp [assocPut, hp, hq, ih]

theorem getRefcntRecord_add (st : DBState) (a : String) (b : PKey) (d : Int)
    (x : String) (y : PKey) :
    getRefcntRecord (addRefcntRecord st a b d) x y =
      if (x, y) = (a, b) then getRefcntRecord st a b + d else getRefcntRecord st x y := by
  by_cases h : (x, y) = (a, b)
  · have hx : x = a := congrArg Prod.fst h
    have hy : y = b := congrArg Prod.snd h
    subst hx; subst hy
    simp only [getRefcntRecord, addRefcntRecord, if_pos rfl]
    rw [find_assocPut_self]
    rfl
  · simp only [getRefcntRecord, addRefcntRecord, if_neg h]
    rw [find_assocPut_ne _ _ _ _ h]

theorem getRefcntTable_add (st : DBState) (a : String) (d : Int) (x : String) :
    getRefcntTable (addRefcntTable st a d) x =
      if x = a then getRefcntTable st a + d else getRefcntTable st x := by
  by_cases h : x = a
  · subst h
    simp only [getRefcntTable, addRefcntTable, if_pos rfl]
    rw [find_assocPut_self]
    rfl
  · simp only [getRefcntTable, addRefcntTable, if_neg h]
    rw [find_assocPut_ne _ _ _ _ h]

theorem addRefcntRecord_fields (st : DBState) (a : String) (b : PKey) (d : Int) :
    (addRefcntRecord st a b d).tables = st.tables ∧
    (addRefcntRecord st a b d).rows = st.rows ∧
    (addRefcntRecord st a b d).refcntTable = st.refcntTable ∧
    (addRefcntRecord st a b d).randCtr = st.randCtr :=
  ⟨rfl, rfl, rfl, rfl⟩

theorem addRefcntTable_fields (st : DBState) (a : String) (d : Int) :
    (addRefcntTable st a d).tables = st.tables ∧
    (addRefcntTable st a d).rows = st.rows ∧
    (addRefcntTable st a d).refcntRecord = st.refcntRecord ∧
    (addRefcntTable st a d).randCtr = st.randCtr :=
  ⟨rfl, rfl, rfl, rfl⟩

/-- The per-key count of a list of refcount targets. -/
def countKey (ks : List (String × PKey)) (k : String × PKey) : Nat :=
  (ks.filter (fun kp => kp = k)).length

theorem applyRefIncs_getRefcnt (ks : List (String × PKey)) :
    ∀ (st : DBState) (x : String) (y : PKey),
      getRefcntRecord (applyRefIncs st ks) x y =
        getRefcntRecord st x y + (countKey ks (x, y) : Int) := by
  induction ks with
  | nil => intro st x y; simp [applyRefIncs, countKey]
  | cons kp rest ih =>
      intro st x y
      have hstep : applyRefIncs st (kp :: rest) =
          applyRefIncs (addRefcntRecord st kp.1 kp.2 1) rest := rfl
      rw [hstep, ih, getRefcntRecord_add]
      by_cases h : (x, y) = (kp.1, kp.2)
      · have hkp : kp = (x, y) := by
          cases kp; cases h; rfl
        simp [countKey, if_pos h, hkp, List.filter_cons]
        ring
      · have hkp : ¬(kp = (x, y)) := by
          intro hh; exact h (Eq.symm hh)
        simp [countKey, if_neg h, hkp, List.filter_cons]

theorem applyRefDecs_getRefcnt (ks : List (String × PKey)) :
    ∀ (st : DBState) (x : String) (y : PKey),
      getRefcntRecord (applyRefDecs st ks) x y =
        getRefcntRecord st x y - (countKey ks (x, y) : Int) := by
  induction ks with
  | nil => intro st x y; simp [applyRefDecs, countKey]
  | cons kp rest ih =>
      intro st x y
      have hstep : applyRefDecs st (kp :: rest) =
          applyRefDecs (addRefcntRecord st kp.1 kp.2 (-1)) rest := rfl
      rw [hstep, ih, getRefcntRecord_add]
      by_cases h : (x, y) = (kp.1, kp.2)
      · have hkp : kp = (x, y) := by
          cases kp; cases h; rfl
        simp [countKey, if_pos h, hkp, List.filter_cons]
        ring
      · have hkp : ¬(kp = (x, y)) := by
          intro hh; exact h (Eq.symm hh)
        simp [countKey, if_neg h, hkp, List.filter_cons]

theorem applyRefIncs_fields (ks : List (String × PKey)) :
    ∀ (st : DBState),
      (applyRefIncs st ks).tables = st.tables ∧
      (applyRefIncs st ks).rows = st.rows ∧
      (applyRefIncs st ks).refcntTable = st.refcntTable ∧
      (applyRefIncs st ks).randCtr = st.randCtr := by
  induction ks with
  | nil => intro st; exact ⟨rfl, rfl, rfl, rfl⟩
  | cons kp rest ih =>
      intro st
      have hstep : applyRefIncs st (kp :: rest) =
          applyRefIncs (addRefcntRecord st kp.1 kp.2 1) rest := rfl
      rw [hstep]
      exact ih (addRefcntRecord st kp.1 kp.2 1)

theorem applyRefDecs_fields (ks : List (String × PKey)) :
    ∀ (st : DBState),
      (applyRefDecs st ks).tables = st.tables ∧
      (applyRefDecs st ks).rows = st.rows ∧
      (applyRefDecs st ks).refcntTable = st.refcntTable ∧
      (applyRefDecs st ks).randCtr = st.randCtr := by
  induction ks with
  | nil => intro st; exact ⟨rfl, rfl, rfl, rfl⟩
  | cons kp rest ih =>
      intro st
      have hstep : applyRefDecs st (kp :: rest) =
          applyRefDecs (addRefcntRecord st kp.1 kp.2 (-1)) rest := rfl
      rw [hstep]
      exact ih (addRefcntRecord st kp.1 kp.2 (-1))

/-- C2: the claim says evaluating `NOT(w)` yields the boolean negation of
evaluating `w`.  The code (`WhereNot.evaluate`, db.py lines 225-226) returns
the child's value WITHOUT negation: `NOT` is the identity on its child, for
every subtree and every record, and in particular `NOT(TRUE)` evaluates to
true.  The specification's "NOT flips its child" describes the evident intent
of a class named `WhereNot`; the missing `not` is a slip in the code. -/
theorem whereNot_returns_child_unnegated :
    (∀ (w : Where) (r : QualRecord), evalWhere (Where.wnot w) r = evalWhere w r) ∧
    evalWhere (Where.wnot Where.nop) { vals := [], idents := [] } = some true :=
  ⟨fun _ _ => rfl, rfl⟩

/-- C5: the claim says a foreign key mapping a local column to a nonexistent
referenced column raises reference-column-existence.  In `db.py` the check on
line 503 uses `>=` (superset) instead of a subset test, so: (1) the mapping to
the nonexistent column `z` slips through and the type loop's `find_col` dies
with an uncaught `KeyError`; (2) a perfectly valid foreign key covering all
columns of the referenced table is wrongly rejected with
reference-column-existence; (3) the nevi prototype performs the check
correctly and raises reference-column-existence as the claim (and the spec's
own boundary scenario 2) requires. -/
theorem createTable_refcolumn_check_inverted :
    createTable fixS5 fixBbad = Except.error DBErr.pyKeyError ∧
    createTable fixS5 fixBok = Except.error DBErr.referenceColumnExistence ∧
    ncreateTable fixNS fixNZ = Except.error DBErr.referenceColumnExistence := by
  refine ⟨rfl, rfl, rfl⟩

/-- C3 counterexample: a single stored table `u` holding TWO foreign keys to
`a` drives `a`'s per-table refcount to 2, while the number of other stored
tables referencing `a` is 1 — the refcount counts foreign-key declarations,
not referencing tables, refuting the claim as stated. -/
theorem tableRefcnt_counts_fkeys_not_tables :
    createTable fixSa fixTu = Except.ok fixSu ∧
    getRefcntTable fixSu "a" = 2 ∧
    refTablesCount fixSu "a" = 1 ∧
    ¬ getRefcntTable fixSu "a" = (refTablesCount fixSu "a" : Int) := by
  refine ⟨rfl, rfl, rfl, ?_⟩
  intro h
  simp [fixSu, getRefcntTable, refTablesCount, fixTu, fixTa] at h

/-- C9 counterexample: `select_values` performs no uniqueness check on output
aliases: the projection `SELECT a.x AS z, a.w AS z FROM a` succeeds and emits
a result set whose header carries the alias `z` twice, refuting the claim
that it fails. -/
theorem select_duplicate_output_aliases_succeed :
    fixCV9.alt_cnames = ["z", "z"] ∧
    selectValues fixSaRow (some fixCV9) fixTV9 none =
      Except.ok (["z", "z"], [[Attr.aint 1, Attr.aint 5]]) := by
  refine ⟨rfl, rfl⟩

/-- C8: over any qualified record, a comparison whose two operands resolve
and of which at least one evaluates to NULL yields false, for all six
operators; and `x IS NULL` evaluates to true exactly when `x` evaluates to
NULL. -/
theorem whereComp_null_yields_false_and_isnull_iff (r : QualRecord)
    (l rt : Operand) (op : CompOp) (i : Ident) (a : Attr)
    (hl : (getValue r l).isSome) (hr : (getValue r rt).isSome)
    (hnull : getValue r l = some Attr.anull ∨ getValue r rt = some Attr.anull)
    (hi : r.find i = some a) :
    evalWhere (Where.wcomp l rt op) r = some false ∧
    (evalWhere (Where.wnull i) r = some true ↔ a = Attr.anull) := by
  constructor
  · obtain ⟨lv, hlv⟩ := Option.isSome_iff_exists.mp hl
    obtain ⟨rv, hrv⟩ := Option.isSome_iff_exists.mp hr
    have hor : lv = Attr.anull ∨ rv = Attr.anull := by
      rcases hnull with h | h
      · left
        rw [hlv] at h
        exact Option.some.inj h
      · right
        rw [hrv] at h
        exact Option.some.inj h
    simp [evalWhere, hlv, hrv, hor]
  · simp [evalWhere, hi]

/-- Witness for C8 at a concrete record: the column `c` is NULL, so `c = 1`
evaluates to false and `c IS NULL` evaluates to true. -/
theorem whereComp_null_witness :
    evalWhere (Where.wcomp (Operand.oident { tname := none, cname := "c" })
      (Operand.oint 1) CompOp.eq) fixNullRec = some false ∧
    (evalWhere (Where.wnull { tname := none, cname := "c" }) fixNullRec = some true ↔
      Attr.anull = Attr.anull) :=
  whereComp_null_yields_false_and_isnull_iff fixNullRec
    (Operand.oident { tname := none, cname := "c" }) (Operand.oint 1) CompOp.eq
    { tname := none, cname := "c" } Attr.anull
    (by decide) (by decide) (Or.inl (by decide)) (by decide)

/-- C1: if the table resolves, the predicate validates, and pass 1 of the
two-pass delete finds at least one matching row with a non-zero per-row
refcount, then `delete_values` aborts with
delete-referential-integrity-passed carrying the TOTAL number of matched rows
(not the number of blocked rows).  Pass 1 performs no mutation, and in this
embedding an erroring command returns no successor state: the caller keeps
the unchanged stored state, mirroring the exception semantics of the source,
so no row is deleted and no refcount is decremented. -/
theorem delete_blocked_aborts_with_match_count (s : DBState) (tname : String)
    (w : Option Where) (t : Table) (matched : List (List Attr × Int)) (ctr : Nat)
    (ht : getTable s tname = some t)
    (hv : validateWhere (w.getD Where.nop) (deleteView tname t) = Except.ok ())
    (hm : scanMatched s t (w.getD Where.nop) = some (matched, ctr))
    (hblock : ∃ p ∈ matched, 0 < p.2) :
    deleteValues s tname w =
      Except.error (DBErr.deleteReferentialIntegrityPassed matched.length) := by
  have hany : matched.any (fun p => 0 < p.2) = true := by
    rw [List.any_eq_true]
    obtain ⟨p, hp, hpos⟩ := hblock
    exact ⟨p, hp, by simpa using hpos⟩
  unfold deleteValues
  rw [ht]
  simp only []
  rw [hv]
  unfold deleteRecords
  rw [hm]
  simp only [hany, if_true]

/-- Witness for C1: in the fixture state both rows of `a` match the empty
predicate, the first is referenced once, and the delete aborts carrying the
total match count 2. -/
theorem delete_blocked_witness :
    deleteValues fixScBlocked "a" none =
      Except.error (DBErr.deleteReferentialIntegrityPassed 2) :=
  delete_blocked_aborts_with_match_count fixScBlocked "a" none fixTa
    [([Attr.aint 1, Attr.aint 5], 1), ([Attr.aint 2, Attr.aint 6], 0)] 0
    rfl rfl rfl ⟨([Attr.aint 1, Attr.aint 5], 1), by decide, by decide⟩

theorem foldlM_except_error {α σ : Type} (f : σ → α → Except DBErr σ) (Q : DBErr → Prop)
    (hf : ∀ st a e, f st a = Except.error e → Q e) :
    ∀ (l : List α) (st : σ) (e : DBErr), List.foldlM f st l = Except.error e → Q e := by
  intro l
  induction l with
  | nil =>
      intro st e h
      simp only [List.foldlM_nil] at h
      cases h
  | cons a tl ih =>
      intro st e h
      simp only [List.foldlM_cons] at h
      cases hstep : f st a with
      | error e2 =>
          rw [hstep] at h
          simp only [Bind.bind, Except.bind] at h
          cases h
          exact hf st a _ hstep
      | ok st1 =>
          rw [hstep] at h
          simp only [Bind.bind, Except.bind] at h
          exact ih st1 e h

theorem decFKeyStep_error {t : Table} {vals : List Attr} {st : DBState} {fk : FKey}
    {e : DBErr} (h : decFKeyStep t vals st fk = Except.error e) : e = DBErr.pyKeyError := by
  unfold decFKeyStep at h
  split at h
  · cases h
    rfl
  · split at h
    · cases h
    · simp at h

theorem pass2Step_error {t : Table} {w : Where} {st : DBState}
    {p : (String × PKey) × List Attr} {e : DBErr}
    (h : pass2Step t w st p = Except.error e) :
    e = DBErr.pyEvalError ∨ e = DBErr.pyKeyError := by
  unfold pass2Step at h
  split at h
  · cases h
    exact Or.inl rfl
  · cases h
  · unfold decrementFKeys at h
    exact Or.inr (foldlM_except_error _ (fun e2 => e2 = DBErr.pyKeyError)
      (fun _ _ _ hh => decFKeyStep_error hh) _ _ _ h)

theorem deletePass2_error {s : DBState} {t : Table} {w : Where} {e : DBErr}
    (h : deletePass2 s t w = Except.error e) :
    e = DBErr.pyEvalError ∨ e = DBErr.pyKeyError := by
  unfold deletePass2 at h
  exact foldlM_except_error _ (fun e2 => e2 = DBErr.pyEvalError ∨ e2 = DBErr.pyKeyError)
    (fun _ _ _ hh => pass2Step_error hh) _ _ _ h

/-- C10: the refcount getters treat an absent entry as 0 instead of failing:
`_get_refcnt_table` and `_get_refcnt_record` of `db.py` return 0 when the
catalog holds no entry, the nevi `_get_refcnt` does the same via a packed-zero
default, so DROP TABLE of an existing never-referenced table passes its
refcount gate and succeeds, and DELETE whose matching rows all read refcount 0
can never abort with delete-referential-integrity-passed. -/
theorem refcnt_absent_reads_zero_and_operations_proceed :
    (∀ (s : DBState) (tn : String),
       s.refcntTable.find? (fun p => p.1 = tn) = none → getRefcntTable s tn = 0) ∧
    (∀ (s : DBState) (tn : String) (pk : PKey),
       s.refcntRecord.find? (fun p => p.1 = (tn, pk)) = none →
       getRefcntRecord s tn pk = 0) ∧
    (∀ (ns : NDBState) (name : String) (tbl : NTable),
       ngetTable ns name = some tbl →
       ns.refcnt.find? (fun p => p.1 = lowerStr name) = none →
       ∃ ns2, ndropTable ns name = Except.ok ns2) ∧
    (∀ (s : DBState) (tname : String) (w : Option Where) (t : Table)
       (matched : List (List Attr × Int)) (ctr : Nat) (c : Nat),
       getTable s tname = some t →
       validateWhere (w.getD Where.nop) (deleteView tname t) = Except.ok () →
       scanMatched s t (w.getD Where.nop) = some (matched, ctr) →
       matched.all (fun p => p.2 = 0) = true →
       deleteValues s tname w ≠
         Except.error (DBErr.deleteReferentialIntegrityPassed c)) := by
  refine ⟨?_, ?_, ?_, ?_⟩
  · intro s tn h
    unfold getRefcntTable
    rw [h]
    rfl
  · intro s tn pk h
    unfold getRefcntRecord
    rw [h]
    rfl
  · intro ns name tbl hgt hrc
    have h0 : ngetRefcnt ns name = 0 := by
      unfold ngetRefcnt
      rw [hrc]
      rfl
    refine ⟨tbl.foreign_keys.foldl (fun acc fk => naddRefcnt acc fk.ref_table (-1))
      { ns with tables := ns.tables.eraseP (fun p => p.1 = lowerStr name) }, ?_⟩
    unfold ndropTable
    rw [hgt, h0]
    simp
  · intro s tname w t matched ctr c ht hv hm hall
    have hallz : ∀ p ∈ matched, p.2 = 0 := by
      intro p hp
      have := List.all_eq_true.mp hall p hp
      simpa using this
    have hany : matched.any (fun p => 0 < p.2) = false := by
      rw [List.any_eq_false]
      intro p hp
      rw [hallz p hp]
      simp
    unfold deleteValues
    rw [ht]
    simp only []
    rw [hv]
    unfold deleteRecords
    rw [hm]
    simp only [hany]
    cases hdp : deletePass2 s t (w.getD Where.nop) with
    | error e =>
        rcases deletePass2_error hdp with h1 | h1 <;> subst h1 <;> simp
    | ok s2 => simp

/-- Witness for C10: an unknown table name reads refcount 0; an absent
per-row entry reads 0; dropping the never-referenced `t1` succeeds; deleting
the unreferenced row of `a` is not aborted by the refcount gate. -/
theorem refcnt_absent_witness :
    getRefcntTable fixSa "nosuch" = 0 ∧
    getRefcntRecord fixSa "a" (PKey.enc []) = 0 ∧
    (∃ ns2, ndropTable fixNS "t1" = Except.ok ns2) ∧
    deleteValues fixSaRow "a" none ≠
      Except.error (DBErr.deleteReferentialIntegrityPassed 1) := by
  have h := refcnt_absent_reads_zero_and_operations_proceed
  exact ⟨h.1 fixSa "nosuch" rfl, h.2.1 fixSa "a" (PKey.enc []) rfl,
         h.2.2.1 fixNS "t1" fixNT1 rfl rfl,
         h.2.2.2 fixSaRow "a" none fixTa [([Attr.aint 1, Attr.aint 5], 0)] 0 1
           rfl rfl rfl (by decide)⟩

theorem getRefcntTable_congr {s2 s : DBState} (h : s2.refcntTable = s.refcntTable)
    (T : String) : getRefcntTable s2 T = getRefcntTable s T := by
  unfold getRefcntTable
  rw [h]

theorem fkeyCountTo_congr {s2 s : DBState} (h : s2.tables = s.tables) (T : String) :
    fkeyCountTo s2 T = fkeyCountTo s T := by
  unfold fkeyCountTo
  rw [h]

theorem foldAddTable_tables (fks : List FKey) :
    ∀ st : DBState,
      (fks.foldl (fun acc fk => addRefcntTable acc fk.ref_tname 1) st).tables = st.tables := by
  induction fks with
  | nil => intro st; rfl
  | cons fk rest ih =>
      intro st
      exact ih (addRefcntTable st fk.ref_tname 1)

theorem foldAddTable_get (fks : List FKey) :
    ∀ (st : DBState) (T : String),
      getRefcntTable (fks.foldl (fun acc fk => addRefcntTable acc fk.ref_tname 1) st) T =
        getRefcntTable st T + ((fks.filter (fun f => f.ref_tname = T)).length : Int) := by
  induction fks with
  | nil => intro st T; simp
  | cons fk rest ih =>
      intro st T
      have hstep : (fk :: rest).foldl (fun acc fk => addRefcntTable acc fk.ref_tname 1) st =
          rest.foldl (fun acc fk => addRefcntTable acc fk.ref_tname 1)
            (addRefcntTable st fk.ref_tname 1) := rfl
      rw [hstep, ih, getRefcntTable_add]
      by_cases h : fk.ref_tname = T
      · have h2 : T = fk.ref_tname := h.symm
        simp [List.filter_cons, h, if_pos h2]
        ring
      · have h2 : ¬(T = fk.ref_tname) := fun hh => h hh.symm
        simp [List.filter_cons, h, if_neg h2]

theorem createTable_ok_shape {s : DBState} {t : Table} {s2 : DBState}
    (h : createTable s t = Except.ok s2) :
    ¬ (s.tables.find? (fun p => p.1 = t.tname)).isSome = true ∧
    s2 = t.fkeys.foldl (fun acc fk => addRefcntTable acc fk.ref_tname 1)
      { s with tables := s.tables ++ [(t.tname, t)] } := by
  unfold createTable at h
  split at h
  · cases h
  · split at h
    · cases h
    · cases h
      rename_i hns
      exact ⟨hns, rfl⟩

theorem insertValues_ok_shape {s : DBState} {tname : String} {r : Record} {s2 : DBState}
    (h : insertValues s tname r = Except.ok s2) :
    ∃ (t : Table) (cns : List String) (vals : List Attr) (ks : List (String × PKey)) (ctr1 : Nat),
      getTable s tname = some t ∧
      buildFullRecord t r = Except.ok (cns, vals) ∧
      collectFKeys s t { vals := vals, cnames := some t.cnamesL } = Except.ok (ks, ctr1) ∧
      getRecordRaw s t.tname
        (Record.pkey { vals := vals, cnames := some t.cnamesL } t ctr1).1 = none ∧
      s2 = applyRefIncs
        { s with
            rows := s.rows ++
              [((t.tname, (Record.pkey { vals := vals, cnames := some t.cnamesL } t ctr1).1), vals)],
            randCtr := (Record.pkey { vals := vals, cnames := some t.cnamesL } t ctr1).2 } ks := by
  unfold insertValues at h
  split at h
  · cases h
  · rename_i t ht
    dsimp only [] at h
    split at h
    · cases h
    · rename_i cns0 vals0 hbf
      split at h
      · cases h
      · rename_i ks0 ctr0 hcf
        split at h
        · cases h
        · rename_i hnone
          cases h
          refine ⟨t, cns0, vals0, ks0, ctr0, ht, hbf, hcf, ?_, rfl⟩
          simpa using hnone

theorem decrementFKeys_fields {st : DBState} {t : Table} {vals : List Attr} {st2 : DBState}
    (h : decrementFKeys st t vals = Except.ok st2) :
    st2.tables = st.tables ∧ st2.rows = st.rows ∧ st2.refcntTable = st.refcntTable := by
  unfold decrementFKeys at h
  refine foldlM_except_inv (decFKeyStep t vals)
    (fun x => x.tables = st.tables ∧ x.rows = st.rows ∧ x.refcntTable = st.refcntTable)
    ?_ t.fkeys st st2 ⟨rfl, rfl, rfl⟩ h
  intro x fk x2 hP hstep
  unfold decFKeyStep at hstep
  split at hstep
  · cases hstep
  · split at hstep
    · cases hstep
      exact hP
    · cases hstep
      exact hP

theorem deletePass2_fields {s : DBState} {t : Table} {w : Where} {s2 : DBState}
    (h : deletePass2 s t w = Except.ok s2) :
    s2.tables = s.tables ∧ s2.refcntTable = s.refcntTable ∧
      (∀ p ∈ s2.rows, p ∈ s.rows) := by
  unfold deletePass2 at h
  refine foldlM_except_inv (pass2Step t w)
    (fun x => x.tables = s.tables ∧ x.refcntTable = s.refcntTable ∧ ∀ p ∈ x.rows, p ∈ s.rows)
    ?_ (tableRows s t.tname) s s2 ⟨rfl, rfl, fun p hp => hp⟩ h
  intro x row x2 hP hstep
  unfold pass2Step at hstep
  split at hstep
  · cases hstep
  · cases hstep
    exact hP
  · have hdec := decrementFKeys_fields hstep
    refine ⟨hdec.1.trans hP.1, hdec.2.2.trans hP.2.1, ?_⟩
    intro p hp
    rw [hdec.2.1] at hp
    have hp2 : p ∈ x.rows := (List.eraseP_sublist x.rows).mem hp
    exact hP.2.2 p hp2

theorem deleteValues_ok_shape {s : DBState} {tn : String} {w : Option Where}
    {s2 : DBState} {c : Nat} (h : deleteValues s tn w = Except.ok (s2, c)) :
    ∃ t : Table, getTable s tn = some t ∧
      deletePass2 s t (w.getD Where.nop) = Except.ok s2 := by
  unfold deleteValues at h
  split at h
  · cases h
  · rename_i t ht
    dsimp only [] at h
    split at h
    · cases h
    · unfold deleteRecords at h
      split at h
      · cases h
      · split at h
        · cases h
        · split at h
          · cases h
          · rename_i s3 hdp
            cases h
            exact ⟨t, ht, hdp⟩

/-- C3 (amended): the per-referenced-table refcount of `T` equals the TOTAL
number of foreign-key declarations across stored tables that reference `T`
(counted per declaration: a single table holding two foreign keys to `T`
contributes two, not one).  The invariant is preserved by every successful
`create_table`, `insert_values` and `delete_values` of `db.py`. -/
theorem tableRefcnt_tracks_fkey_declarations (s : DBState) (h : TableRefcntInv s) :
    (∀ (t : Table) (s2 : DBState), createTable s t = Except.ok s2 → TableRefcntInv s2) ∧
    (∀ (tn : String) (r : Record) (s2 : DBState),
       insertValues s tn r = Except.ok s2 → TableRefcntInv s2) ∧
    (∀ (tn : String) (w : Option Where) (s2 : DBState) (c : Nat),
       deleteValues s tn w = Except.ok (s2, c) → TableRefcntInv s2) := by
  refine ⟨?_, ?_, ?_⟩
  · intro t s2 hc T
    obtain ⟨-, hs2⟩ := createTable_ok_shape hc
    subst hs2
    rw [foldAddTable_get]
    have hbase : getRefcntTable { s with tables := s.tables ++ [(t.tname, t)] } T =
        getRefcntTable s T := rfl
    rw [hbase, h T]
    have htab : (t.fkeys.foldl (fun acc fk => addRefcntTable acc fk.ref_tname 1)
        { s with tables := s.tables ++ [(t.tname, t)] }).tables =
        s.tables ++ [(t.tname, t)] := foldAddTable_tables t.fkeys _
    unfold fkeyCountTo
    rw [htab, List.map_append, List.sum_append]
    simp
  · intro tn r s2 hi T
    obtain ⟨t, cns, vals, ks, ctr1, -, -, -, -, hs2⟩ := insertValues_ok_shape hi
    subst hs2
    have hf := applyRefIncs_fields ks
      { s with
          rows := s.rows ++
            [((t.tname, (Record.pkey { vals := vals, cnames := some t.cnamesL } t ctr1).1), vals)],
          randCtr := (Record.pkey { vals := vals, cnames := some t.cnamesL } t ctr1).2 }
    rw [getRefcntTable_congr hf.2.2.1 T, fkeyCountTo_congr hf.1 T]
    exact h T
  · intro tn w s2 c hd T
    obtain ⟨t, -, hdp⟩ := deleteValues_ok_shape hd
    have hf := deletePass2_fields hdp
    rw [getRefcntTable_congr hf.2.1 T, fkeyCountTo_congr hf.1 T]
    exact h T

/-- Witness for C3 (amended): from the empty state, creating `a` and then `u`
(which holds two foreign keys to `a`) preserves the invariant, and
instantiating it at `"a"` reads refcount 2 = two foreign-key declarations. -/
theorem tableRefcnt_tracks_fkey_declarations_witness :
    getRefcntTable fixSu "a" = (fkeyCountTo fixSu "a" : Int) := by
  have h0 : TableRefcntInv fixSa := by
    intro T
    unfold getRefcntTable fkeyCountTo fixSa fixTa
    simp
  exact (tableRefcnt_tracks_fkey_declarations fixSa h0).1 fixTu fixSu rfl "a"

theorem foldlM_all_ok {α σ : Type} (f : σ → α → Except DBErr σ) (g : σ → α → σ)
    (hfg : ∀ st a, f st a = Except.ok (g st a)) :
    ∀ (l : List α) (st : σ), List.foldlM f st l = Except.ok (l.foldl g st) := by
  intro l
  induction l with
  | nil =>
      intro st
      simp only [List.foldlM_nil]
      rfl
  | cons a tl ih =>
      intro st
      simp only [List.foldlM_cons, hfg, Bind.bind, Except.bind, List.foldl_cons]
      exact ih (g st a)

/-- C9 (amended): `select_values` performs NO uniqueness check on output
aliases.  For any projection whose identifiers all resolve in the view built
from the FROM list — including projections whose entries carry the same
output alias — the statement succeeds and the emitted header row is exactly
the alias list, duplicates included. -/
theorem select_emits_duplicate_aliases (s : DBState) (cv : ColumnView) (tv : TableView)
    (view : View) (tables : List Table)
    (h1 : buildSelView s tv = Except.ok (view, tables))
    (h2 : checkProjection view cv = Except.ok ()) :
    ∃ rows, selectValues s (some cv) tv none = Except.ok (cv.alt_cnames, rows) := by
  unfold selectValues
  rw [h1]
  dsimp only []
  rw [h2]
  have hv : validateWhere (Where.nop) view = Except.ok () := rfl
  dsimp only [Option.getD]
  rw [hv]
  have hsr : ∀ combos : List (List QualRecord), selectRows (some cv) Where.nop combos =
      Except.ok (combos.foldl (fun acc rs => acc ++ [(cv.project (combineQR rs)).vals]) []) := by
    intro combos
    unfold selectRows
    exact foldlM_all_ok _ _ (fun st rs => rfl) combos []
  rw [hsr]
  exact ⟨_, rfl⟩

/-- Witness for C9 (amended): the duplicated projection of the fixture
resolves, and the select succeeds with header `["z", "z"]`. -/
theorem select_emits_duplicate_aliases_witness :
    ∃ rows, selectValues fixSaRow (some fixCV9) fixTV9 none =
      Except.ok (fixCV9.alt_cnames, rows) :=
  select_emits_duplicate_aliases fixSaRow fixCV9 fixTV9
    { idents := [{ tname := some "a", cname := "x" }, { tname := some "a", cname := "w" }],
      cols := fixTa.cols }
    [fixTa] rfl rfl

theorem refRecord_some_pkeys_nonempty {fk : FKey} {rt : Table} {r : Record} {rr : Record}
    (h : fk.refRecord rt r = some rr) : rt.pkeys.isEmpty = false := by
  unfold FKey.refRecord at h
  dsimp only [] at h
  split at h
  · cases h
  · rename_i hall
    have hex : ∃ c ∈ fk.refComponents rt r, ¬(decide (c.2 = Attr.anull) = true) := by
      by_contra hno
      push_neg at hno
      exact hall (List.all_eq_true.mpr (fun c hc => hno c hc))
    obtain ⟨c, hc, -⟩ := hex
    unfold FKey.refComponents at hc
    obtain ⟨p, -, hbody⟩ := List.mem_filterMap.mp hc
    split at hbody
    · cases hbody
    · split at hbody
      · rename_i hcontains
        cases hpk : rt.pkeys with
        | nil => rw [hpk] at hcontains; simp at hcontains
        | cons a tl => rfl
      · cases hbody

theorem pkey_of_nonempty {r : Record} {t : Table} (h : t.pkeys.isEmpty = false)
    (ctr : Nat) : Record.pkey r t ctr = (r.pkeyF t, ctr) := by
  unfold Record.pkey
  rw [h]
  simp

/-- C4: for an insert into a table with a single (possibly multi-column)
foreign key whose row construction succeeds: if every component of the
foreign key in the constructed row is NULL, the check is waived and the
insert cannot raise referential-integrity; otherwise the referenced row is
looked up by its primary-key bytes and the insert raises
referential-integrity exactly when that row is absent. -/
theorem insert_fkey_waived_or_pkey_lookup (s : DBState) (tname : String) (record : Record)
    (t rt : Table) (fk : FKey) (cns : List String) (vals : List Attr)
    (ht : getTable s tname = some t)
    (hfk : t.fkeys = [fk])
    (hrt : getTable s fk.ref_tname = some rt)
    (hbf : buildFullRecord t record = Except.ok (cns, vals)) :
    ((fk.refComponents rt { vals := vals, cnames := some t.cnamesL }).all
        (fun c => c.2 = Attr.anull) = true →
      insertValues s tname record ≠ Except.error DBErr.insertReferentialIntegrity) ∧
    (∀ rr : Record,
      fk.refRecord rt { vals := vals, cnames := some t.cnamesL } = some rr →
      (insertValues s tname record = Except.error DBErr.insertReferentialIntegrity ↔
        getRecordRaw s rt.tname (rr.pkeyF rt) = none)) := by
  have hins : insertValues s tname record =
      (match collectFKeys s t { vals := vals, cnames := some t.cnamesL } with
       | Except.error e => Except.error e
       | Except.ok (ks, ctr1) =>
          if (getRecordRaw s t.tname
                (Record.pkey { vals := vals, cnames := some t.cnamesL } t ctr1).1).isSome then
            Except.error DBErr.insertDuplicatePrimaryKey
          else
            Except.ok (applyRefIncs
              { s with
                  rows := s.rows ++
                    [((t.tname,
                        (Record.pkey { vals := vals, cnames := some t.cnamesL } t ctr1).1), vals)],
                  randCtr :=
                    (Record.pkey { vals := vals, cnames := some t.cnamesL } t ctr1).2 } ks)) := by
    unfold insertValues
    rw [ht]
    dsimp only []
    rw [hbf]
  have hcoll : collectFKeys s t { vals := vals, cnames := some t.cnamesL } =
      collectFKeyStep s { vals := vals, cnames := some t.cnamesL } ([], s.randCtr) fk := by
    unfold collectFKeys
    rw [hfk]
    simp only [List.foldlM_cons, List.foldlM_nil]
    exact bind_pure _
  constructor
  · intro hall hcontra
    have hrrn : fk.refRecord rt { vals := vals, cnames := some t.cnamesL } = none := by
      unfold FKey.refRecord
      dsimp only []
      rw [hall]
      simp
    have hstep : collectFKeyStep s { vals := vals, cnames := some t.cnamesL }
        ([], s.randCtr) fk = Except.ok ([], s.randCtr) := by
      unfold collectFKeyStep
      simp only [hrt, hrrn]
    rw [hins, hcoll, hstep] at hcontra
    dsimp only [] at hcontra
    split at hcontra
    · simp at hcontra
    · simp at hcontra
  · intro rr hrr
    have hne := refRecord_some_pkeys_nonempty hrr
    have hpk := pkey_of_nonempty (r := rr) (t := rt) hne s.randCtr
    have hstep0 : collectFKeyStep s { vals := vals, cnames := some t.cnamesL }
        ([], s.randCtr) fk =
        (match getRecordRaw s rt.tname (rr.pkeyF rt) with
         | none => Except.error DBErr.insertReferentialIntegrity
         | some _ => Except.ok ([(rt.tname, rr.pkeyF rt)], s.randCtr)) := by
      unfold collectFKeyStep
      simp only [hrt, hrr]
      rw [hpk]
      rfl
    cases hlook : getRecordRaw s rt.tname (rr.pkeyF rt) with
    | none =>
        rw [hlook] at hstep0
        rw [hins, hcoll, hstep0]
        simp [hlook]
    | some v =>
        rw [hlook] at hstep0
        rw [hins, hcoll, hstep0]
        dsimp only []
        constructor
        · intro hcontra
          split at hcontra
          · simp at hcontra
          · simp at hcontra
        · intro hcontra
          simp at hcontra

/-- Witness for C4: inserting `(1)` into `b` while `a` holds no rows takes
the non-waived branch, the primary-key lookup fails, and the insert raises
referential-integrity. -/
theorem insert_fkey_waived_or_pkey_lookup_witness :
    insertValues fixSabNoRow "b" { vals := [Attr.aint 1] } =
      Except.error DBErr.insertReferentialIntegrity :=
  ((insert_fkey_waived_or_pkey_lookup fixSabNoRow "b" { vals := [Attr.aint 1] }
      fixTb fixTa { ref_tname := "a", cname_map := [("y", "x")] } ["y"] [Attr.aint 1]
      rfl rfl rfl rfl).2
    { vals := [Attr.aint 1], cnames := some ["x"] } rfl).mpr rfl

theorem truncateVal_null_iff (col : Column) (v : Attr) :
    truncateVal col v = Attr.anull ↔ v = Attr.anull := by
  cases v <;> simp [truncateVal]
  cases col.ctype.cparam <;> simp

theorem colErr_none_check_null {col : Column} {v : Attr} (h : colErr col v = none) :
    col.ctype.check_null v = true := by
  unfold colErr at h
  split at h
  · cases h
  · rename_i hc
    simpa using hc

theorem buildFold_shape (cns : List String) (rvals : List Attr) :
    ∀ (cols : List Column) (acc vals : List Attr),
      List.foldlM
        (fun acc col =>
          match colValue cns rvals col with
          | none => Except.error DBErr.pyIndexError
          | some v =>
              match colErr col v with
              | some e => Except.error e
              | none => Except.ok (acc ++ [truncateVal col v]))
        acc cols = Except.ok vals →
      ∃ tl, vals = acc ++ tl ∧
        (cols.zip tl).all (fun p => p.1.ctype.nullable || decide (p.2 ≠ Attr.anull)) = true := by
  intro cols
  induction cols with
  | nil =>
      intro acc vals h
      simp only [List.foldlM_nil] at h
      cases h
      exact ⟨[], by simp⟩
  | cons col rest ih =>
      intro acc vals h
      simp only [List.foldlM_cons] at h
      cases hcv : colValue cns rvals col with
      | none =>
          rw [hcv] at h
          simp [Bind.bind, Except.bind] at h
      | some v =>
          rw [hcv] at h
          dsimp only [] at h
          cases hce : colErr col v with
          | some e =>
              rw [hce] at h
              simp [Bind.bind, Except.bind] at h
          | none =>
              rw [hce] at h
              simp only [Bind.bind, Except.bind] at h
              obtain ⟨tl, htl, hall⟩ := ih (acc ++ [truncateVal col v]) vals h
              refine ⟨truncateVal col v :: tl, by simpa [List.append_assoc] using htl, ?_⟩
              simp only [List.zip_cons_cons, List.all_cons, hall, Bool.and_true]
              have hcn := colErr_none_check_null hce
              unfold CType.check_null at hcn
              rcases Bool.or_eq_true_iff.mp hcn with hne | hnl
              · have : ¬(v = Attr.anull) := by simpa using hne
                have : ¬(truncateVal col v = Attr.anull) := by
                  rw [truncateVal_null_iff]
                  exact this
                simp [this]
              · simp [hnl]

theorem buildFullRecord_ok_inv {t : Table} {r : Record} {cns : List String}
    {vals : List Attr} (h : buildFullRecord t r = Except.ok (cns, vals)) :
    List.foldlM
      (fun acc col =>
        match colValue cns r.vals col with
        | none => Except.error DBErr.pyIndexError
        | some v =>
            match colErr col v with
            | some e => Except.error e
            | none => Except.ok (acc ++ [truncateVal col v]))
      [] t.cols = Except.ok vals := by
  unfold buildFullRecord at h
  split at h
  · cases h
  · split at h
    · cases h
    · split at h
      · cases h
      · rename_i hfold
        cases h
        exact hfold

theorem buildFullRecord_ok_respects {t : Table} {r : Record} {cns : List String}
    {vals : List Attr} (h : buildFullRecord t r = Except.ok (cns, vals)) :
    rowRespectsNonNull t vals = true := by
  have hfold := buildFullRecord_ok_inv h
  obtain ⟨tl, htl, hall⟩ := buildFold_shape cns r.vals t.cols [] vals hfold
  unfold rowRespectsNonNull
  rw [htl]
  simpa using hall

theorem respects_imp_noNullPkey {t : Table} {vals : List Attr}
    (hpk : PkeyColsNonNull t = true) (hresp : rowRespectsNonNull t vals = true) :
    rowNoNullPKey t vals = true := by
  unfold rowNoNullPKey
  rw [List.all_eq_true]
  intro p hp
  have hmem := List.of_mem_zip hp
  have hcol := (List.all_eq_true.mp hpk) p.1 hmem.1
  have hrow := (List.all_eq_true.mp hresp) p hp
  rcases Bool.or_eq_true_iff.mp hcol with hnc | hnn
  · simp only [hnc, Bool.true_or]
  · rcases Bool.or_eq_true_iff.mp hrow with hnl | hne
    · have h1 : p.1.ctype.nullable = false := by simpa using hnn
      rw [h1] at hnl
      cases hnl
    · simp only [hne, Bool.or_true]

theorem buildFold_pre_ok (cns : List String) (rvals : List Attr) :
    ∀ (pre : List Column) (acc : List Attr),
      (∀ c ∈ pre, ∃ v, colValue cns rvals c = some v ∧ colErr c v = none) →
      ∃ acc2,
        List.foldlM
          (fun acc col =>
            match colValue cns rvals col with
            | none => Except.error DBErr.pyIndexError
            | some v =>
                match colErr col v with
                | some e => Except.error e
                | none => Except.ok (acc ++ [truncateVal col v]))
          acc pre = Except.ok acc2 := by
  intro pre
  induction pre with
  | nil =>
      intro acc hpre
      exact ⟨acc, rfl⟩
  | cons c rest ih =>
      intro acc hpre
      obtain ⟨v, hv, he⟩ := hpre c (List.mem_cons_self c rest)
      obtain ⟨acc2, hacc2⟩ := ih (acc ++ [truncateVal c v])
        (fun c2 hc2 => hpre c2 (List.mem_cons_of_mem c hc2))
      refine ⟨acc2, ?_⟩
      simp only [List.foldlM_cons, hv, he, Bind.bind, Except.bind]
      exact hacc2

theorem buildFullRecord_null_nonnullable {t : Table} {r : Record} {cns : List String}
    {pre post : List Column} {col : Column}
    (hcn : r.cnames = some cns)
    (hex : cns.filter (fun c => !t.cnamesL.contains c) = [])
    (hcols : t.cols = pre ++ col :: post)
    (hpre : ∀ c ∈ pre, ∃ v, colValue cns r.vals c = some v ∧ colErr c v = none)
    (hcol : colValue cns r.vals col = some Attr.anull)
    (hnn : col.ctype.nullable = false) :
    buildFullRecord t r = Except.error (DBErr.insertColumnNonNullable col.cname) := by
  have hce : colErr col Attr.anull = some (DBErr.insertColumnNonNullable col.cname) := by
    unfold colErr CType.check_null
    rw [hnn]
    simp
  obtain ⟨acc2, hacc2⟩ := buildFold_pre_ok cns r.vals pre [] hpre
  unfold buildFullRecord
  rw [hcn]
  dsimp only []
  rw [hex]
  rw [hcols, List.foldlM_append, hacc2]
  simp only [Bind.bind, Except.bind, List.foldlM_cons, hcol, hce]

theorem getTable_append_ne {s : DBState} {t : Table} {tn : String} (h : ¬ tn = t.tname) :
    getTable { s with tables := s.tables ++ [(t.tname, t)] } tn = getTable s tn := by
  unfold getTable
  dsimp only []
  rw [List.find?_append]
  cases hf : s.tables.find? (fun p => p.1 = tn) with
  | some q => simp
  | none =>
      have h2 : ¬(t.tname = tn) := fun hh => h hh.symm
      simp [h2]


theorem nvalidate_pkey_nonnullable {nt nt2 : NTable}
    (h : NTable.validate nt = Except.ok nt2) :
    ∀ pk ∈ nt2.primary_keys, ∀ c ∈ nt2.columns,
      ((pk.map lowerStr).eraseDups).contains (lowerStr c.name) = true →
      c.nullable = false := by
  unfold NTable.validate at h
  dsimp only [] at h
  split at h
  · cases h
  · split at h
    · cases h
    · split at h
      · cases h
      · split at h
        · cases h
        · split at h
          · cases h
          · rename_i hlen
            split at h
            · cases h
            · rename_i t2 heq
              split at h
              · cases h
              · cases h
                split at heq
                · rename_i hpkshape
                  cases heq
                  intro pk hpk
                  rw [hpkshape] at hpk
                  cases hpk
                · rename_i pk0 tail hpkshape
                  split at heq
                  · cases heq
                  · split at heq
                    · cases heq
                    · cases heq
                      intro pk hpk c hc hcont
                      have htail : tail = [] := by
                        rw [hpkshape] at hlen
                        cases tail with
                        | nil => rfl
                        | cons x xs => simp at hlen
                      rw [hpkshape, htail] at hpk
                      have hpk0 : pk = pk0 := by
                        cases hpk with
                        | head => rfl
                        | tail _ hmem => cases hmem
                      rw [hpk0] at hcont
                      obtain ⟨c0, hc0, hfc⟩ := List.mem_map.mp hc
                      by_cases hb :
                          ((pk0.map lowerStr).eraseDups).contains (lowerStr c0.name) = true
                      · rw [if_pos hb] at hfc
                        rw [← hfc]
                      · rw [if_neg hb] at hfc
                        subst hfc
                        exact absurd hcont hb

theorem getTable_congr {s1 s2 : DBState} (h : s1.tables = s2.tables) (tn : String) :
    getTable s1 tn = getTable s2 tn := by
  unfold getTable
  rw [h]

theorem foldAddTable_rows (fks : List FKey) :
    ∀ st : DBState,
      (fks.foldl (fun acc fk => addRefcntTable acc fk.ref_tname 1) st).rows = st.rows := by
  induction fks with
  | nil => intro st; rfl
  | cons fk rest ih =>
      intro st
      exact ih (addRefcntTable st fk.ref_tname 1)

theorem noNullPkey_create {s : DBState} {t : Table} {s2 : DBState}
    (hinv : NoNullPkeyInv s) (hc : createTable s t = Except.ok s2)
    (hfresh : ∀ p ∈ s.rows, ¬ p.1.1 = t.tname) : NoNullPkeyInv s2 := by
  obtain ⟨-, hs2⟩ := createTable_ok_shape hc
  subst hs2
  intro p hp t2 hgt
  rw [foldAddTable_rows] at hp
  have htab := foldAddTable_tables t.fkeys { s with tables := s.tables ++ [(t.tname, t)] }
  rw [getTable_congr htab] at hgt
  rw [getTable_append_ne (hfresh p hp)] at hgt
  exact hinv p hp t2 hgt

theorem noNullPkey_insert {s : DBState} {tn : String} {r : Record} {s2 : DBState}
    (hnamed : TablesNamed s)
    (hpk : ∀ (tn2 : String) (t : Table), getTable s tn2 = some t → PkeyColsNonNull t = true)
    (hinv : NoNullPkeyInv s) (hi : insertValues s tn r = Except.ok s2) : NoNullPkeyInv s2 := by
  obtain ⟨t, cns, vals, ks, ctr1, ht, hbf, hcf, hnone, hs2⟩ := insertValues_ok_shape hi
  have hfields := applyRefIncs_fields ks
    { s with
        rows := s.rows ++
          [((t.tname, (Record.pkey { vals := vals, cnames := some t.cnamesL } t ctr1).1), vals)],
        randCtr := (Record.pkey { vals := vals, cnames := some t.cnamesL } t ctr1).2 }
  intro p hp t2 hgt
  rw [hs2, hfields.2.1] at hp
  have htabs : s2.tables = s.tables := by
    rw [hs2]
    exact hfields.1
  rw [getTable_congr htabs] at hgt
  rcases List.mem_append.mp hp with hold | hnew
  · exact hinv p hold t2 hgt
  · have hpeq : p =
        ((t.tname, (Record.pkey { vals := vals, cnames := some t.cnamesL } t ctr1).1), vals) := by
      simpa using hnew
    have htn : t.tname = tn := hnamed tn t ht
    rw [hpeq] at hgt
    simp only [htn] at hgt
    rw [ht] at hgt
    cases hgt
    rw [hpeq]
    exact respects_imp_noNullPkey (hpk tn t ht) (buildFullRecord_ok_respects hbf)

theorem noNullPkey_delete {s : DBState} {tn : String} {w : Option Where} {s2 : DBState}
    {c : Nat} (hinv : NoNullPkeyInv s) (hd : deleteValues s tn w = Except.ok (s2, c)) :
    NoNullPkeyInv s2 := by
  obtain ⟨t, -, hdp⟩ := deleteValues_ok_shape hd
  have hf := deletePass2_fields hdp
  intro p hp t2 hgt
  rw [getTable_congr hf.1] at hgt
  exact hinv p (hf.2.2 p hp) t2 hgt

/-- C6: (i) the nevi `Table.validate` marks every column named in the
declared primary key non-nullable; (ii) `insert_values` fails with
column-non-nullable when the first offending column is a non-nullable column
whose constructed value is NULL — whether NULL was supplied explicitly or the
column was omitted (`colValue` yields NULL for omitted columns); (iii) given
the §3 table invariant that primary-key columns are non-nullable, after every
successful CREATE TABLE / INSERT / DELETE no stored row holds NULL in a
primary-key column. -/
theorem pkey_columns_nonnullable_no_null_stored :
    (∀ (nt nt2 : NTable), NTable.validate nt = Except.ok nt2 →
       ∀ pk ∈ nt2.primary_keys, ∀ c ∈ nt2.columns,
         ((pk.map lowerStr).eraseDups).contains (lowerStr c.name) = true →
         c.nullable = false) ∧
    (∀ (s : DBState) (tname : String) (t : Table) (r : Record) (cns : List String)
       (pre post : List Column) (col : Column),
       getTable s tname = some t →
       r.cnames = some cns →
       cns.filter (fun c => !t.cnamesL.contains c) = [] →
       t.cols = pre ++ col :: post →
       (∀ c ∈ pre, ∃ v, colValue cns r.vals c = some v ∧ colErr c v = none) →
       colValue cns r.vals col = some Attr.anull →
       col.ctype.nullable = false →
       insertValues s tname r = Except.error (DBErr.insertColumnNonNullable col.cname)) ∧
    (∀ s : DBState, TablesNamed s →
       (∀ (tn : String) (t : Table), getTable s tn = some t → PkeyColsNonNull t = true) →
       NoNullPkeyInv s →
       (∀ (t : Table) (s2 : DBState), createTable s t = Except.ok s2 →
          (∀ p ∈ s.rows, ¬ p.1.1 = t.tname) → NoNullPkeyInv s2) ∧
       (∀ (tn : String) (r : Record) (s2 : DBState),
          insertValues s tn r = Except.ok s2 → NoNullPkeyInv s2) ∧
       (∀ (tn : String) (w : Option Where) (s2 : DBState) (c : Nat),
          deleteValues s tn w = Except.ok (s2, c) → NoNullPkeyInv s2)) := by
  refine ⟨?_, ?_, ?_⟩
  · intro nt nt2 h
    exact nvalidate_pkey_nonnullable h
  · intro s tname t r cns pre post col ht hcn hex hcols hpre hcol hnn
    have hbuild := buildFullRecord_null_nonnullable (t := t) hcn hex hcols hpre hcol hnn
    unfold insertValues
    rw [ht]
    dsimp only []
    rw [hbuild]
  · intro s hnamed hpk hinv
    exact ⟨fun t s2 hc hfresh => noNullPkey_create hinv hc hfresh,
           fun tn r s2 hi => noNullPkey_insert hnamed hpk hinv hi,
           fun tn w s2 c hd => noNullPkey_delete hinv hd⟩

/-- Witness for C6: inserting an explicit NULL into the non-nullable
primary-key column `x` of `c3` fails with column-non-nullable(x). -/
theorem pkey_columns_nonnullable_witness :
    insertValues fixSc3 "c3"
      { vals := [Attr.anull, Attr.aint 1], cnames := some ["x", "w"] } =
      Except.error (DBErr.insertColumnNonNullable "x") :=
  pkey_columns_nonnullable_no_null_stored.2.1 fixSc3 "c3" fixTc3
    { vals := [Attr.anull, Attr.aint 1], cnames := some ["x", "w"] } ["x", "w"]
    [] [colInt "w"] (colIntNN "x") rfl rfl rfl rfl
    (fun c hc => absurd hc (List.not_mem_nil c)) rfl rfl

theorem decode_unqual (t : Table) (vals : List Attr) :
    (decodeRecord t vals).unqual = { vals := vals, cnames := some t.cnamesL } := by
  unfold decodeRecord QualRecord.unqual Table.cnamesL
  simp [List.map_map, Function.comp]

theorem scan_prefix_false (s : DBState) (t : Table) (w : Where) :
    ∀ (l : List ((String × PKey) × List Attr)) (acc : List (List Attr × Int) × Nat),
      (∀ p ∈ l, evalWhere w (decodeRecord t p.2) = some false) →
      List.foldlM (scanStep s t w) acc l = some acc := by
  intro l
  induction l with
  | nil => intro acc h; rfl
  | cons p rest ih =>
      intro acc h
      have hp := h p (List.mem_cons_self p rest)
      have hstep : scanStep s t w acc p = some acc := by
        unfold scanStep
        rw [hp]
      simp only [List.foldlM_cons, hstep, Bind.bind, Option.bind]
      exact ih acc (fun q hq => h q (List.mem_cons_of_mem p hq))

theorem pass2_prefix_false (t : Table) (w : Where) :
    ∀ (l : List ((String × PKey) × List Attr)) (st : DBState),
      (∀ p ∈ l, evalWhere w (decodeRecord t p.2) = some false) →
      List.foldlM (pass2Step t w) st l = Except.ok st := by
  intro l
  induction l with
  | nil => intro st h; rfl
  | cons p rest ih =>
      intro st h
      have hp := h p (List.mem_cons_self p rest)
      have hstep : pass2Step t w st p = Except.ok st := by
        unfold pass2Step
        rw [hp]
      simp only [List.foldlM_cons, hstep, Bind.bind, Except.bind]
      exact ih st (fun q hq => h q (List.mem_cons_of_mem p hq))

theorem collect_dec_align (s : DBState) (t : Table) (vals : List Attr) :
    ∀ (fks : List FKey) (acc : List (String × PKey)) (ctr : Nat)
      (ks : List (String × PKey)) (ctr1 : Nat),
      List.foldlM (collectFKeyStep s { vals := vals, cnames := some t.cnamesL })
        (acc, ctr) fks = Except.ok (ks, ctr1) →
      ∀ st : DBState, st.tables = s.tables →
        ∃ newks, ks = acc ++ newks ∧ ctr1 = ctr ∧
          List.foldlM (decFKeyStep t vals) st fks = Except.ok (applyRefDecs st newks) := by
  intro fks
  induction fks with
  | nil =>
      intro acc ctr ks ctr1 h st hst
      simp only [List.foldlM_nil] at h
      cases h
      exact ⟨[], by simp, rfl, rfl⟩
  | cons fk rest ih =>
      intro acc ctr ks ctr1 h st hst
      simp only [List.foldlM_cons] at h
      cases hgt : getTable s fk.ref_tname with
      | none =>
          have hstep : collectFKeyStep s { vals := vals, cnames := some t.cnamesL }
              (acc, ctr) fk = Except.error DBErr.pyKeyError := by
            unfold collectFKeyStep
            simp only [hgt]
          rw [hstep] at h
          simp [Bind.bind, Except.bind] at h
      | some rt =>
          cases hrr : fk.refRecord rt { vals := vals, cnames := some t.cnamesL } with
          | none =>
              have hstep : collectFKeyStep s { vals := vals, cnames := some t.cnamesL }
                  (acc, ctr) fk = Except.ok (acc, ctr) := by
                unfold collectFKeyStep
                simp only [hgt, hrr]
              rw [hstep] at h
              simp only [Bind.bind, Except.bind] at h
              obtain ⟨newks, hks, hctr, hdec⟩ := ih acc ctr ks ctr1 h st hst
              have hgt2 : getTable st fk.ref_tname = some rt := by
                rw [getTable_congr hst]
                exact hgt
              have hdstep : decFKeyStep t vals st fk = Except.ok st := by
                unfold decFKeyStep
                simp only [hgt2, hrr]
              refine ⟨newks, hks, hctr, ?_⟩
              simp only [List.foldlM_cons, hdstep, Bind.bind, Except.bind]
              exact hdec
          | some rr =>
              have hne := refRecord_some_pkeys_nonempty hrr
              cases hlook : getRecordRaw s rt.tname (rr.pkeyF rt) with
              | none =>
                  have hstep : collectFKeyStep s { vals := vals, cnames := some t.cnamesL }
                      (acc, ctr) fk = Except.error DBErr.insertReferentialIntegrity := by
                    unfold collectFKeyStep
                    simp only [hgt, hrr]
                    rw [pkey_of_nonempty hne]
                    simp only [hlook]
                  rw [hstep] at h
                  simp [Bind.bind, Except.bind] at h
              | some v =>
                  have hstep : collectFKeyStep s { vals := vals, cnames := some t.cnamesL }
                      (acc, ctr) fk =
                      Except.ok (acc ++ [(rt.tname, rr.pkeyF rt)], ctr) := by
                    unfold collectFKeyStep
                    simp only [hgt, hrr]
                    rw [pkey_of_nonempty hne]
                    simp only [hlook]
                  rw [hstep] at h
                  simp only [Bind.bind, Except.bind] at h
                  obtain ⟨newks2, hks, hctr, hdec⟩ :=
                    ih (acc ++ [(rt.tname, rr.pkeyF rt)]) ctr ks ctr1 h
                      (addRefcntRecord st rt.tname (rr.pkeyF rt) (-1))
                      ((addRefcntRecord_fields st rt.tname (rr.pkeyF rt) (-1)).1.trans hst)
                  have hgt2 : getTable st fk.ref_tname = some rt := by
                    rw [getTable_congr hst]
                    exact hgt
                  have hdstep : decFKeyStep t vals st fk =
                      Except.ok (addRefcntRecord st rt.tname (rr.pkeyF rt) (-1)) := by
                    unfold decFKeyStep
                    simp only [hgt2, hrr]
                    rw [pkey_of_nonempty hne]
                    rfl
                  refine ⟨(rt.tname, rr.pkeyF rt) :: newks2, ?_, hctr, ?_⟩
                  · rw [hks]
                    simp
                  · simp only [List.foldlM_cons, hdstep, Bind.bind, Except.bind]
                    exact hdec

/-- C7: from any state, inserting a row into a table with a declared primary
key and then deleting it with a predicate matching exactly that row restores
every per-row refcount (per referenced table and primary-key bytes) to its
value before the insert, and restores the row stores as well.  The
reachability facts used as hypotheses: the freshly inserted row is not itself
referenced (`hrc`), the table is stored under its own name, and the predicate
validates and matches only the new row. -/
theorem insert_then_delete_restores_refcnts
    (s : DBState) (tname : String) (record : Record) (t : Table) (w : Where)
    (s1 : DBState) (cns : List String) (vals : List Attr)
    (ht : getTable s tname = some t)
    (htn : t.tname = tname)
    (hpkne : t.pkeys.isEmpty = false)
    (hins : insertValues s tname record = Except.ok s1)
    (hbf : buildFullRecord t record = Except.ok (cns, vals))
    (hv : validateWhere w (deleteView tname t) = Except.ok ())
    (hold : ∀ p ∈ tableRows s tname, evalWhere w (decodeRecord t p.2) = some false)
    (hnew : evalWhere w (decodeRecord t vals) = some true)
    (hrc : getRefcntRecord s1 tname
        (Record.pkeyF { vals := vals, cnames := some t.cnamesL } t) = 0) :
    ∃ s2 : DBState, deleteValues s1 tname (some w) = Except.ok (s2, 1) ∧
      (∀ (x : String) (y : PKey), getRefcntRecord s2 x y = getRefcntRecord s x y) ∧
      s2.rows = s.rows := by
  subst htn
  obtain ⟨t0, cns0, vals0, ks, ctr1, ht0, hbf0, hcf, hnone, hs1⟩ := insertValues_ok_shape hins
  have htt : t = t0 := by
    have h2 := ht.symm.trans ht0
    exact Option.some.inj h2
  subst htt
  have hpair : (cns0, vals0) = (cns, vals) := Except.ok.inj (hbf0.symm.trans hbf)
  cases hpair
  have hpk1 : Record.pkey { vals := vals, cnames := some t.cnamesL } t ctr1 =
      (Record.pkeyF { vals := vals, cnames := some t.cnamesL } t, ctr1) :=
    pkey_of_nonempty hpkne ctr1
  rw [hpk1] at hs1 hnone
  dsimp only [] at hs1 hnone
  have htabs1 : s1.tables = s.tables := by
    rw [hs1]
    exact (applyRefIncs_fields ks _).1
  have hrows1 : s1.rows = s.rows ++
      [((t.tname, Record.pkeyF { vals := vals, cnames := some t.cnamesL } t), vals)] := by
    rw [hs1]
    exact (applyRefIncs_fields ks _).2.1
  unfold collectFKeys at hcf
  obtain ⟨newks, hksnew, hctr1s, hdecf⟩ :=
    collect_dec_align s t vals t.fkeys [] s.randCtr ks ctr1 hcf
      { s1 with rows := s.rows } htabs1
  have hksnew2 : ks = newks := by simpa using hksnew
  have htr : tableRows s1 t.tname = tableRows s t.tname ++
      [((t.tname, Record.pkeyF { vals := vals, cnames := some t.cnamesL } t), vals)] := by
    unfold tableRows
    rw [hrows1, List.filter_append]
    simp [tableRows]
  have hscan : scanMatched s1 t w = some ([(vals, 0)], s1.randCtr) := by
    unfold scanMatched
    rw [htr, List.foldlM_append,
      scan_prefix_false s1 t w (tableRows s t.tname) ([], s1.randCtr) hold]
    simp only [Bind.bind, Option.bind, List.foldlM_cons, List.foldlM_nil]
    have hstep : scanStep s1 t w ([], s1.randCtr)
        ((t.tname, Record.pkeyF { vals := vals, cnames := some t.cnamesL } t), vals) =
        some ([(vals, 0)], s1.randCtr) := by
      unfold scanStep
      rw [hnew]
      dsimp only []
      rw [decode_unqual, pkey_of_nonempty hpkne]
      dsimp only []
      rw [hrc]
      rfl
    rw [hstep]
    rfl
  have hnomem : ∀ p ∈ s.rows,
      ¬((fun q => decide (q.1 =
        (t.tname, Record.pkeyF { vals := vals, cnames := some t.cnamesL } t))) p = true) := by
    unfold getRecordRaw at hnone
    cases hfo : s.rows.find? (fun p => p.1 =
        (t.tname, Record.pkeyF { vals := vals, cnames := some t.cnamesL } t)) with
    | some q => rw [hfo] at hnone; cases hnone
    | none =>
        intro p hp
        exact List.find?_eq_none.mp hfo p hp
  have herase : (s.rows ++
      [((t.tname, Record.pkeyF { vals := vals, cnames := some t.cnamesL } t), vals)]).eraseP
        (fun q => decide (q.1 =
          (t.tname, Record.pkeyF { vals := vals, cnames := some t.cnamesL } t))) = s.rows := by
    rw [List.eraseP_append_right _ hnomem, List.eraseP_cons_of_pos (by simp)]
    simp
  have hpass2 : deletePass2 s1 t w =
      Except.ok (applyRefDecs { s1 with rows := s.rows } newks) := by
    unfold deletePass2
    rw [htr, List.foldlM_append,
      pass2_prefix_false t w (tableRows s t.tname) s1 hold]
    simp only [Bind.bind, Except.bind, List.foldlM_cons, List.foldlM_nil]
    have hstep : pass2Step t w s1
        ((t.tname, Record.pkeyF { vals := vals, cnames := some t.cnamesL } t), vals) =
        Except.ok (applyRefDecs { s1 with rows := s.rows } newks) := by
      unfold pass2Step
      rw [hnew]
      dsimp only []
      rw [hrows1, herase]
      unfold decrementFKeys
      exact hdecf
    rw [hstep]
    rfl
  refine ⟨applyRefDecs { s1 with rows := s.rows } newks, ?_, ?_, ?_⟩
  · unfold deleteValues
    have hgt1 : getTable s1 t.tname = some t := by
      rw [getTable_congr htabs1]
      exact ht
    rw [hgt1]
    dsimp only [Option.getD]
    rw [hv]
    unfold deleteRecords
    rw [hscan]
    dsimp only []
    rw [hpass2]
    rfl
  · intro x y
    have h1 := applyRefDecs_getRefcnt newks { s1 with rows := s.rows } x y
    have h2 : getRefcntRecord { s1 with rows := s.rows } x y = getRefcntRecord s1 x y := rfl
    have h3 : getRefcntRecord s1 x y =
        getRefcntRecord s x y + (countKey ks (x, y) : Int) := by
      rw [hs1]
      exact applyRefIncs_getRefcnt ks _ x y
    rw [h1, h2, h3, hksnew2]
    omega
  · have hr := (applyRefDecs_fields newks { s1 with rows := s.rows }).2.1
    rw [hr]

/-- Witness for C7: inserting `(1)` into `b` (which references the `a` row)
and then deleting it with `y = 1` returns every per-row refcount — including
`a`'s row, incremented by the insert — to its pre-insert value, and restores
the row stores. -/
theorem insert_then_delete_restores_refcnts_witness :
    ∃ s2 : DBState, deleteValues fixSab2 "b" (some fixWy) = Except.ok (s2, 1) ∧
      (∀ (x : String) (y : PKey), getRefcntRecord s2 x y = getRefcntRecord fixSab x y) ∧
      s2.rows = fixSab.rows :=
  insert_then_delete_restores_refcnts fixSab "b" { vals := [Attr.aint 1] } fixTb fixWy
    fixSab2 ["y"] [Attr.aint 1] rfl rfl rfl rfl rfl rfl (by decide) rfl rfl
